import Mathlib

/-!
Shallow embedding of the PromptPipe conversational routing core
(`promptpipe_agent`): the SQLite-backed persistence store
(`models/state_manager.py`), the data model (`models/schemas.py`), the
handler-visible tools (`tools/state_transition_tool.py`,
`tools/profile_save_tool.py`, `tools/scheduler_tool.py`), the two handlers
present in the source (`agents/coordinator_agent.py`, `agents/intake_agent.py`),
and the router (`agents/orchestrator.py`).

Modelling conventions:
- All durable entities are partitioned by participant identity and every SQL
  query filters on `participant_id` (and `flow_type = 'conversation'`), so the
  store is modelled as the per-participant slice of the database.
- `datetime('now')` timestamps are modelled by a per-store `clock : Nat` that
  advances on every write; each written row carries the clock at write time,
  so timestamps are monotonically non-decreasing and `ORDER BY timestamp ASC`
  (ties broken by insertion / rowid order) returns rows in insertion order.
- Python exceptions escaping a store read/write are modelled by
  `Except StoreError`; `StoreError.unavailable` stands for a connectivity/I-O
  failure (`sqlite3` raising on connect/execute) and `StoreError.corrupt` for
  a stored value that cannot be decoded to its expected shape
  (`ConversationState(row[0])` raising `ValueError`, `json.loads` /
  pydantic validation raising).
- The opaque text-generation capability (`llm.invoke` / `AgentExecutor.invoke`)
  is a parameter: it either succeeds with a list of tool invocations and a
  final text, or fails (raises) after some list of tool invocations already
  executed — `AgentExecutor.invoke` runs tools between LLM calls inside the
  handler's single try/except, so tool writes committed before a later raise
  stay committed.  The coordinator agent binds no tools to its LLM call and
  executes none, so it ignores the tool-invocation list in both outcomes; the
  intake agent's `AgentExecutor` executes the listed tools in order.
-/

/-- `ConversationState` from `models/schemas.py`: the closed four-value
enumeration of conversation flow states. -/
inductive ConversationState
  | COORDINATOR
  | INTAKE
  | FEEDBACK
  | CONVERSATION_ACTIVE
  deriving DecidableEq, Repr

/-- The string value of each enumeration member (`ConversationState.value`
in Python; the enum is a `str` enum whose values equal the member names). -/
def ConversationState.value : ConversationState → String
  | .COORDINATOR => "COORDINATOR"
  | .INTAKE => "INTAKE"
  | .FEEDBACK => "FEEDBACK"
  | .CONVERSATION_ACTIVE => "CONVERSATION_ACTIVE"

/-- The enum constructor `ConversationState(s)`: succeeds exactly on the four
member values, raises `ValueError` (here: `none`) on anything else. -/
def ConversationState.ofValue? : String → Option ConversationState
  | "COORDINATOR" => some .COORDINATOR
  | "INTAKE" => some .INTAKE
  | "FEEDBACK" => some .FEEDBACK
  | "CONVERSATION_ACTIVE" => some .CONVERSATION_ACTIVE
  | _ => none

/-- A stored label is valid when `ConversationState(label)` would succeed. -/
def validLabel (v : String) : Bool :=
  (ConversationState.ofValue? v).isSome

/-- One row of the `conversation_history` table: `(role, content, timestamp)`
for the participant under consideration.  Roles are stored as the strings
`MessageRole.USER.value = "user"`, `"assistant"`, `"system"`. -/
structure HistRow where
  role : String
  content : String
  timestamp : Nat
  deriving DecidableEq, Repr

/-- The five optional personalization fields of `UserProfile`
(`models/schemas.py`), as stored in the `profile_data` JSON blob. -/
structure ProfileFields where
  habit_domain : Option String
  prompt_anchor : Option String
  motivational_frame : Option String
  preferred_time : Option String
  other_personalization : Option String
  deriving DecidableEq, Repr

/-- The shape of the `profile_data` column of a `user_profiles` row.
`blank` models a falsy stored value (`NULL` or the empty string), which the
Python read guards with `if row and row[0]:`.  `malformed` models a non-empty
value on which `json.loads` / pydantic validation raises.  `fields` models a
well-formed JSON blob of the five optional fields. -/
inductive ProfileBlob
  | blank
  | malformed
  | fields (f : ProfileFields)
  deriving DecidableEq, Repr

/-- A `user_profiles` row for the participant: the `profile_data` blob plus
the `updated_at` column (set by SQL `datetime('now')` on every write). -/
structure ProfileRow where
  blob : ProfileBlob
  updated_at : Nat
  deriving DecidableEq, Repr

/-- A primitive JSON value. -/
inductive JsonPrim
  | null
  | bool (b : Bool)
  | str (s : String)
  deriving DecidableEq, Repr

/-- A JSON value for the `flow_state_data.value` column, restricted to the
shapes this core reads and writes: a primitive, or a flat object of
primitives (the scheduler tool's `{"time": ..., "message": ..., "enabled":
...}` dictionary). -/
inductive Json
  | prim (p : JsonPrim)
  | obj (kvs : List (String × JsonPrim))
  deriving DecidableEq, Repr

/-- The shape of a stored `flow_state_data.value`: falsy (`NULL`/empty),
undecodable, or a decodable JSON value, mirroring `ProfileBlob`. -/
inductive DataVal
  | blank
  | malformed
  | json (j : Json)
  deriving DecidableEq, Repr

/-- A `flow_state_data` row (for `flow_type = 'conversation'`). -/
structure DataRow where
  value : DataVal
  updated_at : Nat
  deriving DecidableEq, Repr

/-- The pydantic `UserProfile` model (`models/schemas.py`): participant id,
five optional personalization fields, and `created_at` / `updated_at`
(whose pydantic `default_factory=datetime.now` fills in the construction
time when the field is not supplied). -/
structure UserProfile where
  participant_id : String
  habit_domain : Option String
  prompt_anchor : Option String
  motivational_frame : Option String
  preferred_time : Option String
  other_personalization : Option String
  created_at : Nat
  updated_at : Nat
  deriving DecidableEq, Repr

/-- `profile.model_dump(exclude={"participant_id", "created_at",
"updated_at"})`: the five personalization fields that
`save_user_profile` actually serializes into `profile_data`. -/
def UserProfile.dumpFields (p : UserProfile) : ProfileFields :=
  ⟨p.habit_domain, p.prompt_anchor, p.motivational_frame, p.preferred_time,
   p.other_personalization⟩

/-- The per-participant slice of the shared SQLite database
(`SQLiteStateManager`), plus an availability flag modelling connectivity and
a write clock modelling `datetime('now')`. -/
structure Store where
  available : Bool
  flow_state : Option String
  flow_updated_at : Nat
  history : List HistRow
  profile : Option ProfileRow
  state_data : List (String × DataRow)
  clock : Nat
  deriving DecidableEq, Repr

/-- Failure conditions of store operations: `unavailable` models an
I/O / connectivity exception from sqlite3, `corrupt` a stored value that does
not decode to its expected shape. -/
inductive StoreError
  | unavailable
  | corrupt (what : String)
  deriving DecidableEq, Repr

/-- `str(e)` for a store exception, as interpolated into tool error texts. -/
def StoreError.toMessage : StoreError → String
  | .unavailable => "database unavailable"
  | .corrupt what => "could not decode " ++ what

/-- `SQLiteStateManager.get_current_state`: select the `state` column of the
participant's `flow_states` row for flow `'conversation'`; no row yields
`None`, a row yields `ConversationState(row[0])`, which raises on an
unrecognized label. -/
def Store.get_current_state (s : Store) :
    Except StoreError (Option ConversationState) :=
  if s.available then
    match s.flow_state with
    | none => .ok none
    | some v =>
      match ConversationState.ofValue? v with
      | some st => .ok (some st)
      | none => .error (.corrupt "state")
  else
    .error .unavailable

/-- `SQLiteStateManager.set_current_state`: upsert the participant's
`flow_states` row with the new state value and `updated_at =
datetime('now')`. -/
def Store.set_current_state (s : Store) (st : ConversationState) :
    Except StoreError Store :=
  if s.available then
    .ok { s with
          flow_state := some st.value
          flow_updated_at := s.clock
          clock := s.clock + 1 }
  else
    .error .unavailable

/-- `SQLiteStateManager.add_message`: insert a `conversation_history` row with
`timestamp = datetime('now')` (append-only). -/
def Store.add_message (s : Store) (role content : String) :
    Except StoreError Store :=
  if s.available then
    .ok { s with
          history := s.history ++ [⟨role, content, s.clock⟩]
          clock := s.clock + 1 }
  else
    .error .unavailable

/-- `SQLiteStateManager.get_conversation_history`: select all history rows for
the participant `ORDER BY timestamp ASC`.  Rows are written with the
monotonically non-decreasing write clock, so the insertion-ordered list is
already in timestamp order (ties broken by insertion / rowid order). -/
def Store.get_conversation_history (s : Store) :
    Except StoreError (List HistRow) :=
  if s.available then .ok s.history else .error .unavailable

/-- `SQLiteStateManager.get_user_profile`: select `profile_data` of the
participant's `user_profiles` row.  No row, or a falsy (`NULL`/empty) value,
yields `None` (the Python guard is `if row and row[0]:`); an undecodable
value raises; a decodable blob is rebuilt as
`UserProfile(participant_id=participant_id, **data)`, where `created_at` and
`updated_at` are absent from the blob and so are filled by their pydantic
`default_factory=datetime.now`, i.e. the read time. -/
def Store.get_user_profile (s : Store) (pid : String) :
    Except StoreError (Option UserProfile) :=
  if s.available then
    match s.profile with
    | none => .ok none
    | some row =>
      match row.blob with
      | .blank => .ok none
      | .malformed => .error (.corrupt "profile_data")
      | .fields f =>
        .ok (some
          { participant_id := pid
            habit_domain := f.habit_domain
            prompt_anchor := f.prompt_anchor
            motivational_frame := f.motivational_frame
            preferred_time := f.preferred_time
            other_personalization := f.other_personalization
            created_at := s.clock
            updated_at := s.clock })
  else
    .error .unavailable

/-- `SQLiteStateManager.save_user_profile`: upsert the participant's
`user_profiles` row with `profile_data = json.dumps(profile.model_dump(
exclude={"participant_id", "created_at", "updated_at"}))` and
`updated_at = datetime('now')`. -/
def Store.save_user_profile (s : Store) (p : UserProfile) :
    Except StoreError Store :=
  if s.available then
    .ok { s with
          profile := some ⟨.fields p.dumpFields, s.clock⟩
          clock := s.clock + 1 }
  else
    .error .unavailable

/-- `SQLiteStateManager.get_state_data`: select `value` of the participant's
`flow_state_data` row for the given key (flow `'conversation'`).  No row, or
a falsy value, yields `None`; an undecodable value raises (`json.loads`). -/
def Store.get_state_data (s : Store) (key : String) :
    Except StoreError (Option Json) :=
  if s.available then
    match s.state_data.lookup key with
    | none => .ok none
    | some row =>
      match row.value with
      | .blank => .ok none
      | .malformed => .error (.corrupt "value")
      | .json j => .ok (some j)
  else
    .error .unavailable

/-- `SQLiteStateManager.set_state_data`: upsert the participant's
`flow_state_data` row for the key with `value = json.dumps(value)` and
`updated_at = datetime('now')`. -/
def Store.set_state_data (s : Store) (key : String) (v : Json) :
    Except StoreError Store :=
  if s.available then
    .ok { s with
          state_data :=
            (key, ⟨.json v, s.clock⟩) ::
              s.state_data.filter (fun kv => kv.1 ≠ key)
          clock := s.clock + 1 }
  else
    .error .unavailable

/-!
## Tools (`tools/*.py`)

Each tool's `_run` catches every exception and returns error text, so a tool
invocation is a total function `Store → String × Store`: the returned store is
unchanged whenever the tool reports an error.
-/

/-- `StateTransitionTool._run`: parse the label with `ConversationState(...)`
(`ValueError` is caught and reported as text, before any store access), then
persist the new state; a store exception is caught and reported as text.
The Python error text wraps the label in single quotes, elided here. -/
def stateTransitionRun (s : Store) (pid new_state : String) : String × Store :=
  match ConversationState.ofValue? new_state with
  | none =>
    ("Error: Invalid state " ++ new_state ++
      ". Valid states are: COORDINATOR, INTAKE, FEEDBACK", s)
  | some st =>
    match s.set_current_state st with
    | .ok s1 => ("Successfully transitioned to " ++ new_state ++ " state.", s1)
    | .error e => ("Error transitioning state: " ++ e.toMessage, s)

/-- `if habit_domain is not None: profile_dict["habit_domain"] = habit_domain`:
a provided field overwrites, an omitted (`None`) field retains the prior
value. -/
def mergeField : Option String → Option String → Option String
  | some v, _ => some v
  | none, prior => prior

/-- One entry of the saved-fields summary: Python appends
`f"{name}: {value}"` when the argument is truthy (provided and non-empty). -/
def fieldEntry (label : String) : Option String → List String
  | some v => if v = "" then [] else [label ++ ": " ++ v]
  | none => []

/-- The saved-fields summary lines of `ProfileSaveTool._run`. -/
def savedFieldEntries (hd pa mf pt op : Option String) : List String :=
  fieldEntry "habit_domain" hd ++ fieldEntry "prompt_anchor" pa ++
    fieldEntry "motivational_frame" mf ++ fieldEntry "preferred_time" pt ++
    fieldEntry "other_personalization" op

/-- `ProfileSaveTool._run`: read the existing profile; if present, overwrite
exactly the provided fields (refreshing the in-memory `updated_at`), else
build a fresh `UserProfile` from the provided fields; persist it; report a
summary of the truthy provided fields.  Every exception is caught and
reported as text. -/
def profileSaveRun (s : Store) (pid : String)
    (hd pa mf pt op : Option String) : String × Store :=
  match s.get_user_profile pid with
  | .error e => ("Error saving profile: " ++ e.toMessage, s)
  | .ok existing =>
    let profile : UserProfile :=
      match existing with
      | some ep =>
        { ep with
          habit_domain := mergeField hd ep.habit_domain
          prompt_anchor := mergeField pa ep.prompt_anchor
          motivational_frame := mergeField mf ep.motivational_frame
          preferred_time := mergeField pt ep.preferred_time
          other_personalization := mergeField op ep.other_personalization
          updated_at := s.clock }
      | none =>
        { participant_id := pid
          habit_domain := hd
          prompt_anchor := pa
          motivational_frame := mf
          preferred_time := pt
          other_personalization := op
          created_at := s.clock
          updated_at := s.clock }
    match s.save_user_profile profile with
    | .error e => ("Error saving profile: " ++ e.toMessage, s)
    | .ok s1 =>
      match savedFieldEntries hd pa mf pt op with
      | [] => ("Profile save called but no fields were updated.", s1)
      | entries =>
        ("Profile saved successfully. Updated fields: " ++
          String.intercalate ", " entries, s1)

/-- `SchedulerTool._run`: store the schedule preference under key
`"schedule"`; `message or "personalized"` substitutes the default on a falsy
(absent or empty) message.  Every exception is caught and reported as
text. -/
def schedulerRun (s : Store) (pid time : String) (message : Option String) :
    String × Store :=
  let msgVal : String :=
    match message with
    | some m => if m = "" then "personalized" else m
    | none => "personalized"
  let scheduleData : Json :=
    .obj [("time", .str time), ("message", .str msgVal),
          ("enabled", .bool true)]
  match s.set_state_data "schedule" scheduleData with
  | .ok s1 =>
    ("Daily prompt scheduled for " ++ time ++
      ". The prompt will be sent automatically.", s1)
  | .error e => ("Error scheduling prompt: " ++ e.toMessage, s)

/-!
## Handlers (`agents/coordinator_agent.py`, `agents/intake_agent.py`)

The opaque generation capability is a parameter of each handler: on success
it yields the tool invocations the LLM requested plus final response text; on
failure it raises, which the handler converts to an apology string.
-/

/-- One tool invocation requested by the generation capability during a
turn. -/
inductive GenAction
  | transition (label : String)
  | saveProfile (hd pa mf pt op : Option String)
  | schedule (time : String) (message : Option String)

/-- Outcome of the opaque generation capability for one turn.  `ok` yields
the tool invocations the agent loop executed plus the final response text.
`fail` models the whole `invoke` raising: `AgentExecutor.invoke` interleaves
LLM calls with tool executions inside one try/except, so by the time a later
LLM call raises, earlier tool invocations (`actions`) have already executed
and durably committed their writes; the coordinator binds no tools, so its
`llm.invoke` never executes any. -/
inductive GenResult
  | ok (actions : List GenAction) (text : String)
  | fail (actions : List GenAction) (err : String)

/-- Dispatch one requested tool invocation. -/
def runGenAction (pid : String) (s : Store) : GenAction → String × Store
  | .transition lbl => stateTransitionRun s pid lbl
  | .saveProfile hd pa mf pt op => profileSaveRun s pid hd pa mf pt op
  | .schedule t m => schedulerRun s pid t m

/-- Run the requested tool invocations in order, threading the store
(the `AgentExecutor` tool loop); tool result texts feed the LLM scratchpad
and are not part of the persisted record. -/
def runGenActions (pid : String) (s : Store) : List GenAction → Store
  | [] => s
  | a :: rest => runGenActions pid (runGenAction pid s a).2 rest

/-- The apology string both handlers substitute for a generation failure:
`f"I apologize, but I encountered an error: {str(e)}"`. -/
def apologyText (err : String) : String :=
  "I apologize, but I encountered an error: " ++ err

/-- `settings.chat_history_limit` bounding: `if limit > 0:
messages[-limit:]`, i.e. the last `limit` messages; non-positive means no
bound (-1 unlimited in the default configuration). -/
def boundHistory (limit : Int) (h : List HistRow) : List HistRow :=
  if limit > 0 then h.drop (h.length - limit.toNat) else h

/-- Convert stored history rows to the role-tagged chat pairs handed to the
LLM: `"user"` rows become human messages, `"assistant"` rows become AI
messages, anything else (e.g. `"system"`) is skipped. -/
def toChatPairs (h : List HistRow) : List (String × String) :=
  h.filterMap fun r =>
    if r.role = "user" then some ("human", r.content)
    else if r.role = "assistant" then some ("ai", r.content)
    else none

/-- `UserProfile.to_context_string`: one line per truthy field, joined by
newlines; a fixed fallback when every field is falsy. -/
def UserProfile.to_context_string (p : UserProfile) : String :=
  let parts :=
    fieldEntry "Habit Domain" p.habit_domain ++
      fieldEntry "Prompt Anchor" p.prompt_anchor ++
      fieldEntry "Motivational Frame" p.motivational_frame ++
      fieldEntry "Preferred Time" p.preferred_time ++
      fieldEntry "Other Personalization" p.other_personalization
  match parts with
  | [] => "No profile data available."
  | _ => String.intercalate "\n" parts

/-- The profile context block the intake agent appends to its input:
`f"\n\nCurrent Profile:\n{profile.to_context_string()}"` when a profile was
read, the empty string otherwise. -/
def profileContextOf : Option UserProfile → String
  | some p => "\n\nCurrent Profile:\n" ++ p.to_context_string
  | none => ""

/-- Observable record of one handler invocation: what the handler read, what
it handed to generation, the store at the moment generation was invoked, and
the response plus final store. -/
structure ProcessTrace where
  historyRead : List HistRow
  genInput : List (String × String)
  currentInput : String
  storeAtGen : Store
  response : String
  store : Store

/-- `CoordinatorAgent.process_message`: read history; build the LLM message
list (system prompt, bounded history, then the incoming message); append the
incoming message to history as `"user"`; invoke the LLM (no tools are bound
or executed, so requested tool invocations are ignored; a failure becomes the
apology text); append the response as `"assistant"`. -/
def coordinatorProcess (sysPrompt : String) (limit : Int) (gen : GenResult)
    (s : Store) (pid msg : String) : Except StoreError ProcessTrace := do
  let hist ← s.get_conversation_history
  let llmMessages :=
    ("system", sysPrompt) :: (toChatPairs (boundHistory limit hist) ++
      [("human", msg)])
  let s1 ← s.add_message "user" msg
  let response :=
    match gen with
    | .ok _ txt => txt
    | .fail _ err => apologyText err
  let s2 ← s1.add_message "assistant" response
  .ok { historyRead := hist
        genInput := llmMessages
        currentInput := msg
        storeAtGen := s1
        response := response
        store := s2 }

/-- `IntakeAgent.process_message`: read history and profile; build the
bounded chat history and the profile-enhanced input; append the incoming
message as `"user"`; invoke the tool-calling agent (requested tool
invocations run in order; when the `invoke` raises, the tool invocations
it executed before raising have already committed, and the exception
becomes the apology text); append the response as `"assistant"`. -/
def intakeProcess (limit : Int) (gen : GenResult)
    (s : Store) (pid msg : String) : Except StoreError ProcessTrace := do
  let hist ← s.get_conversation_history
  let profile ← s.get_user_profile pid
  let profileContext := profileContextOf profile
  let chatHistory := toChatPairs (boundHistory limit hist)
  let s1 ← s.add_message "user" msg
  let enhancedInput :=
    if profileContext = "" then msg else msg ++ profileContext
  match gen with
  | .ok acts txt =>
    let s2 := runGenActions pid s1 acts
    let s3 ← s2.add_message "assistant" txt
    .ok { historyRead := hist
          genInput := chatHistory
          currentInput := enhancedInput
          storeAtGen := s1
          response := txt
          store := s3 }
  | .fail acts err =>
    let s2 := runGenActions pid s1 acts
    let response := apologyText err
    let s3 ← s2.add_message "assistant" response
    .ok { historyRead := hist
          genInput := chatHistory
          currentInput := enhancedInput
          storeAtGen := s1
          response := response
          store := s3 }

/-- Modelled from the spec: `agents/feedback_agent.py` is imported by the
orchestrator but is not under `src/`.  Per the handler contract (spec section
on the Handler Set and Router steps 3-4), every handler reads history,
appends the incoming message as role `USER` before processing, may request
tool invocations (including transitions) during processing, converts a
generation failure into the apology text, and appends its own output as role
`ASSISTANT` before returning.  Modelled with the same step structure as the
intake handler, minus the profile-context enhancement. -/
def feedbackProcess (limit : Int) (gen : GenResult)
    (s : Store) (pid msg : String) : Except StoreError ProcessTrace := do
  let hist ← s.get_conversation_history
  let chatHistory := toChatPairs (boundHistory limit hist)
  let s1 ← s.add_message "user" msg
  match gen with
  | .ok acts txt =>
    let s2 := runGenActions pid s1 acts
    let s3 ← s2.add_message "assistant" txt
    .ok { historyRead := hist
          genInput := chatHistory
          currentInput := msg
          storeAtGen := s1
          response := txt
          store := s3 }
  | .fail acts err =>
    let s2 := runGenActions pid s1 acts
    let response := apologyText err
    let s3 ← s2.add_message "assistant" response
    .ok { historyRead := hist
          genInput := chatHistory
          currentInput := msg
          storeAtGen := s1
          response := response
          store := s3 }

/-!
## Router (`agents/orchestrator.py`)
-/

/-- The generation outcomes of the three handlers for one turn (each handler
holds its own LLM invocation). -/
structure GenSpec where
  coordinator : GenResult
  intake : GenResult
  feedback : GenResult

/-- Step 1 of `ConversationOrchestrator.process_message`: read the current
state; if none is set, default to `COORDINATOR` and persist it before routing
proceeds. -/
def orchestratorDefault (s : Store) :
    Except StoreError (ConversationState × Store) := do
  let cur ← s.get_current_state
  match cur with
  | none => do
    let s1 ← s.set_current_state .COORDINATOR
    .ok (.COORDINATOR, s1)
  | some st => .ok (st, s)

/-- The value returned by `process_message` — `(response, updated_state)` —
together with the resulting store and the handler trace, which the embedding
returns explicitly since the Python mutates the shared database in place. -/
structure RouteResult where
  response : String
  finalState : Option ConversationState
  store : Store
  trace : ProcessTrace

/-- `ConversationOrchestrator.process_message`: default-and-persist the
state, route to the handler selected by the current state (`INTAKE` to the
intake agent, `FEEDBACK` to the feedback agent, `COORDINATOR` or
`CONVERSATION_ACTIVE` to the coordinator), then re-read the state (a
transition may have occurred) and return it with the response. -/
def processMessage (sysPrompt : String) (limit : Int) (gens : GenSpec)
    (s : Store) (pid msg : String) : Except StoreError RouteResult := do
  let (cur, s1) ← orchestratorDefault s
  let trace ←
    match cur with
    | .INTAKE => intakeProcess limit gens.intake s1 pid msg
    | .FEEDBACK => feedbackProcess limit gens.feedback s1 pid msg
    | _ => coordinatorProcess sysPrompt limit gens.coordinator s1 pid msg
  let updated ← trace.store.get_current_state
  .ok { response := trace.response
        finalState := updated
        store := trace.store
        trace := trace }

/-- A sequence of `process_message` calls for one participant, threading the
store; any store error aborts the run (store failures propagate out of
`route`). -/
def runCalls (sysPrompt : String) (limit : Int) (pid : String) :
    List (GenSpec × String) → Store → Except StoreError Store
  | [], s => .ok s
  | (g, m) :: rest, s => do
    let res ← processMessage sysPrompt limit g s pid m
    runCalls sysPrompt limit pid rest res.store

/-!
## Well-formedness

A store slice is well formed when the backing database is reachable, the
stored profile blob (if any) is decodable or blank, the stored state label
(if any) is one of the four enumeration values, and history timestamps are
below the write clock and non-decreasing.  Every store produced by this
core's own writes is well formed.
-/

/-- The participant's profile row, if present, is not undecodable. -/
def profileOk : Option ProfileRow → Bool
  | none => true
  | some r =>
    match r.blob with
    | .malformed => false
    | _ => true

/-- The participant's stored state label, if present, is a recognized
enumeration value. -/
def flowOk : Option String → Bool
  | none => true
  | some v => validLabel v

/-- All history timestamps lie strictly below the write clock. -/
def histOk (h : List HistRow) (clock : Nat) : Bool :=
  h.all fun r => r.timestamp < clock

/-- History timestamps are non-decreasing in insertion order. -/
def histSorted : List HistRow → Bool
  | [] => true
  | [_] => true
  | a :: b :: t => (a.timestamp ≤ b.timestamp) && histSorted (b :: t)

/-- Well-formedness of a store slice. -/
def Store.wf (s : Store) : Bool :=
  s.available && profileOk s.profile && flowOk s.flow_state &&
    histOk s.history s.clock && histSorted s.history

theorem wf_iff (s : Store) :
    s.wf = true ↔
      s.available = true ∧ profileOk s.profile = true ∧
        flowOk s.flow_state = true ∧ histOk s.history s.clock = true ∧
        histSorted s.history = true := by
  simp [Store.wf, Bool.and_eq_true, and_assoc]

theorem ofValue?_value (st : ConversationState) :
    ConversationState.ofValue? st.value = some st := by
  cases st <;> rfl

theorem validLabel_value (st : ConversationState) :
    validLabel st.value = true := by
  simp [validLabel, ofValue?_value]

theorem histOk_mono {h : List HistRow} {c c2 : Nat} (hle : c ≤ c2)
    (hk : histOk h c = true) : histOk h c2 = true := by
  simp only [histOk, List.all_eq_true, decide_eq_true_eq] at hk ⊢
  exact fun r hr => lt_of_lt_of_le (hk r hr) hle

theorem histOk_append {h : List HistRow} {c : Nat} (hk : histOk h c = true)
    (role content : String) :
    histOk (h ++ [⟨role, content, c⟩]) (c + 1) = true := by
  simp only [histOk, List.all_eq_true, decide_eq_true_eq, List.mem_append,
    List.mem_singleton] at hk ⊢
  rintro r (hr | rfl)
  · exact Nat.lt_succ_of_lt (hk r hr)
  · exact Nat.lt_succ_self c

theorem histSorted_append (r : HistRow) :
    ∀ h : List HistRow, histSorted h = true →
      (∀ x ∈ h, x.timestamp ≤ r.timestamp) →
        histSorted (h ++ [r]) = true := by
  intro h
  induction h with
  | nil => intro _ _; rfl
  | cons a t ih =>
    intro hs hall
    cases t with
    | nil =>
      simp only [List.cons_append, List.nil_append, histSorted,
        Bool.and_eq_true, decide_eq_true_eq]
      exact ⟨hall a (by simp), trivial⟩
    | cons b t2 =>
      simp only [histSorted, Bool.and_eq_true, decide_eq_true_eq] at hs
      simp only [List.cons_append, histSorted, Bool.and_eq_true,
        decide_eq_true_eq]
      refine ⟨hs.1, ?_⟩
      have := ih hs.2 (fun x hx => hall x (by simp [hx]))
      simpa using this

theorem histSorted_append_of_histOk {h : List HistRow} {c : Nat}
    (hk : histOk h c = true) (hs : histSorted h = true)
    (role content : String) :
    histSorted (h ++ [⟨role, content, c⟩]) = true := by
  refine histSorted_append _ h hs fun x hx => ?_
  simp only [histOk, List.all_eq_true, decide_eq_true_eq] at hk
  exact le_of_lt (hk x hx)

theorem get_current_state_ok {s : Store} (hwf : s.wf = true) :
    ∃ o, s.get_current_state = .ok o := by
  obtain ⟨ha, -, hf, -, -⟩ := (wf_iff s).mp hwf
  cases hv : s.flow_state with
  | none => exact ⟨none, by simp [Store.get_current_state, ha, hv]⟩
  | some v =>
    rw [hv] at hf
    simp only [flowOk, validLabel, Option.isSome_iff_exists] at hf
    obtain ⟨st, hst⟩ := hf
    exact ⟨some st, by simp [Store.get_current_state, ha, hv, hst]⟩

/-!
## Operation-level lemmas
-/

theorem except_bind_ok {α β : Type _} (a : α)
    (f : α → Except StoreError β) :
    (Except.ok a : Except StoreError α) >>= f = f a := rfl

theorem except_bind_err {α β : Type _} (e : StoreError)
    (f : α → Except StoreError β) :
    (Except.error e : Except StoreError α) >>= f = Except.error e := rfl

theorem get_conversation_history_eq {s : Store} (ha : s.available = true) :
    s.get_conversation_history = .ok s.history := by
  simp [Store.get_conversation_history, ha]

theorem add_message_eq {s : Store} (ha : s.available = true)
    (role content : String) :
    s.add_message role content =
      .ok { s with
            history := s.history ++ [⟨role, content, s.clock⟩]
            clock := s.clock + 1 } := by
  simp [Store.add_message, ha]

theorem set_current_state_eq {s : Store} (ha : s.available = true)
    (st : ConversationState) :
    s.set_current_state st =
      .ok { s with
            flow_state := some st.value
            flow_updated_at := s.clock
            clock := s.clock + 1 } := by
  simp [Store.set_current_state, ha]

theorem save_user_profile_eq {s : Store} (ha : s.available = true)
    (p : UserProfile) :
    s.save_user_profile p =
      .ok { s with
            profile := some ⟨.fields p.dumpFields, s.clock⟩
            clock := s.clock + 1 } := by
  simp [Store.save_user_profile, ha]

theorem set_state_data_eq {s : Store} (ha : s.available = true)
    (key : String) (v : Json) :
    s.set_state_data key v =
      .ok { s with
            state_data :=
              (key, ⟨.json v, s.clock⟩) ::
                s.state_data.filter (fun kv => kv.1 ≠ key)
            clock := s.clock + 1 } := by
  simp [Store.set_state_data, ha]

theorem get_user_profile_ok {s : Store} (hwf : s.wf = true) (pid : String) :
    ∃ o, s.get_user_profile pid = .ok o := by
  obtain ⟨ha, hp, -, -, -⟩ := (wf_iff s).mp hwf
  cases hrow : s.profile with
  | none => exact ⟨none, by simp [Store.get_user_profile, ha, hrow]⟩
  | some row =>
    cases hb : row.blob with
    | blank => exact ⟨none, by simp [Store.get_user_profile, ha, hrow, hb]⟩
    | malformed =>
      rw [hrow] at hp
      simp [profileOk, hb] at hp
    | fields f =>
      exact ⟨some
        { participant_id := pid
          habit_domain := f.habit_domain
          prompt_anchor := f.prompt_anchor
          motivational_frame := f.motivational_frame
          preferred_time := f.preferred_time
          other_personalization := f.other_personalization
          created_at := s.clock
          updated_at := s.clock },
        by simp [Store.get_user_profile, ha, hrow, hb]⟩

theorem wf_add_message {s : Store} (hwf : s.wf = true)
    (role content : String) :
    ({ s with
       history := s.history ++ [⟨role, content, s.clock⟩]
       clock := s.clock + 1 } : Store).wf = true := by
  obtain ⟨ha, hp, hf, hk, hs⟩ := (wf_iff s).mp hwf
  exact (wf_iff _).mpr ⟨ha, hp, hf, histOk_append hk role content,
    histSorted_append_of_histOk hk hs role content⟩

theorem wf_set_current_state {s : Store} (hwf : s.wf = true)
    (st : ConversationState) :
    ({ s with
       flow_state := some st.value
       flow_updated_at := s.clock
       clock := s.clock + 1 } : Store).wf = true := by
  obtain ⟨ha, hp, -, hk, hs⟩ := (wf_iff s).mp hwf
  refine (wf_iff _).mpr ⟨ha, hp, ?_, histOk_mono (Nat.le_succ _) hk, hs⟩
  simpa [flowOk] using validLabel_value st

theorem wf_save_profile_fields {s : Store} (hwf : s.wf = true)
    (pf : ProfileFields) :
    ({ s with
       profile := some ⟨.fields pf, s.clock⟩
       clock := s.clock + 1 } : Store).wf = true := by
  obtain ⟨ha, -, hf, hk, hs⟩ := (wf_iff s).mp hwf
  exact (wf_iff _).mpr ⟨ha, rfl, hf, histOk_mono (Nat.le_succ _) hk, hs⟩

theorem wf_set_state_data {s : Store} (hwf : s.wf = true)
    (key : String) (row : DataRow) (rest : List (String × DataRow)) :
    ({ s with
       state_data := (key, row) :: rest
       clock := s.clock + 1 } : Store).wf = true := by
  obtain ⟨ha, hp, hf, hk, hs⟩ := (wf_iff s).mp hwf
  exact (wf_iff _).mpr ⟨ha, hp, hf, histOk_mono (Nat.le_succ _) hk, hs⟩

/-- A tool invocation on a well-formed store keeps the store well formed,
never touches conversation history, and never rewinds the write clock. -/
theorem runGenAction_spec (pid : String) (a : GenAction) {s : Store}
    (hwf : s.wf = true) :
    (runGenAction pid s a).2.wf = true ∧
      (runGenAction pid s a).2.history = s.history ∧
      s.clock ≤ (runGenAction pid s a).2.clock := by
  have ha : s.available = true := ((wf_iff s).mp hwf).1
  cases a with
  | transition lbl =>
    cases hv : ConversationState.ofValue? lbl with
    | none =>
      have he : runGenAction pid s (.transition lbl) =
          ("Error: Invalid state " ++ lbl ++
            ". Valid states are: COORDINATOR, INTAKE, FEEDBACK", s) := by
        simp only [runGenAction, stateTransitionRun, hv]
      rw [he]
      exact ⟨hwf, rfl, le_refl _⟩
    | some st =>
      have he : runGenAction pid s (.transition lbl) =
          ("Successfully transitioned to " ++ lbl ++ " state.",
            { s with
              flow_state := some st.value
              flow_updated_at := s.clock
              clock := s.clock + 1 }) := by
        simp only [runGenAction, stateTransitionRun, hv,
          set_current_state_eq ha]
      rw [he]
      exact ⟨wf_set_current_state hwf st, rfl, Nat.le_succ _⟩
  | saveProfile hd pa mf pt op =>
    obtain ⟨o, ho⟩ := get_user_profile_ok hwf pid
    have he : ∃ txt pf, runGenAction pid s (.saveProfile hd pa mf pt op) =
        (txt, { s with
                profile := some ⟨.fields pf, s.clock⟩
                clock := s.clock + 1 }) := by
      simp only [runGenAction, profileSaveRun, ho, save_user_profile_eq ha]
      cases savedFieldEntries hd pa mf pt op with
      | nil => exact ⟨_, _, rfl⟩
      | cons e es => exact ⟨_, _, rfl⟩
    obtain ⟨txt, pf, he⟩ := he
    rw [he]
    exact ⟨wf_save_profile_fields hwf pf, rfl, Nat.le_succ _⟩
  | schedule t m =>
    have he : ∃ txt v, runGenAction pid s (.schedule t m) =
        (txt, { s with
                state_data :=
                  ("schedule", ⟨.json v, s.clock⟩) ::
                    s.state_data.filter (fun kv => kv.1 ≠ "schedule")
                clock := s.clock + 1 }) := by
      simp only [runGenAction, schedulerRun, set_state_data_eq ha]
      exact ⟨_, _, rfl⟩
    obtain ⟨txt, v, he⟩ := he
    rw [he]
    exact ⟨wf_set_state_data hwf _ _ _, rfl, Nat.le_succ _⟩

/-- Running a list of tool invocations on a well-formed store keeps it well
formed, never touches history, and never rewinds the clock. -/
theorem runGenActions_spec (pid : String) (acts : List GenAction) :
    ∀ {s : Store}, s.wf = true →
      (runGenActions pid s acts).wf = true ∧
        (runGenActions pid s acts).history = s.history ∧
        s.clock ≤ (runGenActions pid s acts).clock := by
  induction acts with
  | nil => intro s hwf; exact ⟨hwf, rfl, le_refl _⟩
  | cons a rest ih =>
    intro s hwf
    obtain ⟨h1, h2, h3⟩ := runGenAction_spec pid a hwf
    obtain ⟨g1, g2, g3⟩ := ih h1
    refine ⟨g1, ?_, le_trans h3 g3⟩
    simp only [runGenActions]
    rw [g2, h2]

/-!
## Handler-level lemmas
-/

/-- The text a handler responds with: the generated text, or the apology on
generation failure. -/
def genText : GenResult → String
  | .ok _ txt => txt
  | .fail _ err => apologyText err

/-- The store after appending the incoming user message. -/
def afterUser (s : Store) (msg : String) : Store :=
  { s with
    history := s.history ++ [⟨"user", msg, s.clock⟩]
    clock := s.clock + 1 }

/-- The store after appending the handler's assistant response. -/
def afterAssistant (s : Store) (txt : String) : Store :=
  { s with
    history := s.history ++ [⟨"assistant", txt, s.clock⟩]
    clock := s.clock + 1 }

theorem add_user_eq {s : Store} (ha : s.available = true) (msg : String) :
    s.add_message "user" msg = .ok (afterUser s msg) :=
  add_message_eq ha "user" msg

theorem add_assistant_eq {s : Store} (ha : s.available = true)
    (txt : String) :
    s.add_message "assistant" txt = .ok (afterAssistant s txt) :=
  add_message_eq ha "assistant" txt

theorem wf_afterUser {s : Store} (hwf : s.wf = true) (msg : String) :
    (afterUser s msg).wf = true := wf_add_message hwf "user" msg

theorem wf_afterAssistant {s : Store} (hwf : s.wf = true) (txt : String) :
    (afterAssistant s txt).wf = true := wf_add_message hwf "assistant" txt

/-- Exact behavior of the coordinator handler on a reachable store: it reads
history first, then appends the user message, generates (ignoring any
requested tool invocations), and appends the response. -/
theorem coordinatorProcess_eq (sysPrompt : String) (limit : Int)
    (gen : GenResult) {s : Store} (ha : s.available = true)
    (pid msg : String) :
    coordinatorProcess sysPrompt limit gen s pid msg =
      .ok { historyRead := s.history
            genInput := ("system", sysPrompt) ::
              (toChatPairs (boundHistory limit s.history) ++ [("human", msg)])
            currentInput := msg
            storeAtGen := afterUser s msg
            response := genText gen
            store := afterAssistant (afterUser s msg) (genText gen) } := by
  have ha1 : (afterUser s msg).available = true := ha
  cases gen with
  | ok acts txt =>
    simp only [coordinatorProcess, get_conversation_history_eq ha,
      except_bind_ok, add_user_eq ha, add_assistant_eq ha1, genText]
  | fail err =>
    simp only [coordinatorProcess, get_conversation_history_eq ha,
      except_bind_ok, add_user_eq ha, add_assistant_eq ha1, genText]

/-- Behavior of the intake handler on a well-formed store: it succeeds, the
result is well formed, its history read precedes the user-message append,
the incoming message is appended before generation and the response after
it, the incoming message text is handed to generation directly, and the
final conversation state is the one the executed tool invocations left
behind — on generation failure, the state left by the tool invocations
that committed before the raise. -/
theorem intakeProcess_spec (limit : Int) (gen : GenResult) {s : Store}
    (hwf : s.wf = true) (pid msg : String) :
    ∃ t : ProcessTrace, intakeProcess limit gen s pid msg = .ok t ∧
      t.store.wf = true ∧
      t.historyRead = s.history ∧
      t.storeAtGen = afterUser s msg ∧
      t.response = genText gen ∧
      (∃ suffix, t.currentInput = msg ++ suffix) ∧
      (∃ ts2, t.store.history =
        s.history ++
          [⟨"user", msg, s.clock⟩, ⟨"assistant", genText gen, ts2⟩]) ∧
      (∀ acts err, gen = .fail acts err →
        t.store.flow_state =
          (runGenActions pid (afterUser s msg) acts).flow_state) ∧
      (∀ acts txt, gen = .ok acts txt →
        t.store.flow_state =
          (runGenActions pid (afterUser s msg) acts).flow_state) := by
  have ha : s.available = true := ((wf_iff s).mp hwf).1
  obtain ⟨o, ho⟩ := get_user_profile_ok hwf pid
  have hwf1 : (afterUser s msg).wf = true := wf_afterUser hwf msg
  have hcur : ∃ suffix,
      (if profileContextOf o = "" then msg
        else msg ++ profileContextOf o) = msg ++ suffix := by
    by_cases hc : profileContextOf o = ""
    · exact ⟨"", by simp [hc]⟩
    · exact ⟨profileContextOf o, by simp [hc]⟩
  cases gen with
  | fail acts err =>
    obtain ⟨gwf, ghist, gclk⟩ := runGenActions_spec pid acts hwf1
    have ha2 : (runGenActions pid (afterUser s msg) acts).available = true :=
      ((wf_iff _).mp gwf).1
    have heq : intakeProcess limit (.fail acts err) s pid msg = .ok
        { historyRead := s.history
          genInput := toChatPairs (boundHistory limit s.history)
          currentInput :=
            if profileContextOf o = "" then msg
            else msg ++ profileContextOf o
          storeAtGen := afterUser s msg
          response := apologyText err
          store :=
            afterAssistant (runGenActions pid (afterUser s msg) acts)
              (apologyText err) } := by
      simp only [intakeProcess, get_conversation_history_eq ha, ho,
        except_bind_ok, add_user_eq ha, add_assistant_eq ha2]
    refine ⟨_, heq, ?_, ?_, ?_, ?_, ?_, ?_, ?_, ?_⟩
    · exact wf_afterAssistant gwf _
    · rfl
    · rfl
    · rfl
    · exact hcur
    · refine ⟨(runGenActions pid (afterUser s msg) acts).clock, ?_⟩
      simp only [afterAssistant, genText]
      rw [ghist]
      simp [afterUser]
    · intro acts2 err2 h
      cases h
      rfl
    · intro acts2 txt2 h
      exact GenResult.noConfusion h
  | ok acts txt =>
    obtain ⟨gwf, ghist, gclk⟩ := runGenActions_spec pid acts hwf1
    have ha2 : (runGenActions pid (afterUser s msg) acts).available = true :=
      ((wf_iff _).mp gwf).1
    have heq : intakeProcess limit (.ok acts txt) s pid msg = .ok
        { historyRead := s.history
          genInput := toChatPairs (boundHistory limit s.history)
          currentInput :=
            if profileContextOf o = "" then msg
            else msg ++ profileContextOf o
          storeAtGen := afterUser s msg
          response := txt
          store :=
            afterAssistant (runGenActions pid (afterUser s msg) acts)
              txt } := by
      simp only [intakeProcess, get_conversation_history_eq ha, ho,
        except_bind_ok, add_user_eq ha, add_assistant_eq ha2]
    refine ⟨_, heq, ?_, ?_, ?_, ?_, ?_, ?_, ?_, ?_⟩
    · exact wf_afterAssistant gwf txt
    · rfl
    · rfl
    · rfl
    · exact hcur
    · refine ⟨(runGenActions pid (afterUser s msg) acts).clock, ?_⟩
      simp only [afterAssistant, genText]
      rw [ghist]
      simp [afterUser]
    · intro acts2 err2 h
      exact GenResult.noConfusion h
    · intro acts2 txt2 h
      cases h
      rfl

/-- Behavior of the feedback handler (modelled from the spec) on a
well-formed store; same shape as the intake handler. -/
theorem feedbackProcess_spec (limit : Int) (gen : GenResult) {s : Store}
    (hwf : s.wf = true) (pid msg : String) :
    ∃ t : ProcessTrace, feedbackProcess limit gen s pid msg = .ok t ∧
      t.store.wf = true ∧
      t.historyRead = s.history ∧
      t.storeAtGen = afterUser s msg ∧
      t.response = genText gen ∧
      (∃ suffix, t.currentInput = msg ++ suffix) ∧
      (∃ ts2, t.store.history =
        s.history ++
          [⟨"user", msg, s.clock⟩, ⟨"assistant", genText gen, ts2⟩]) ∧
      (∀ acts err, gen = .fail acts err →
        t.store.flow_state =
          (runGenActions pid (afterUser s msg) acts).flow_state) ∧
      (∀ acts txt, gen = .ok acts txt →
        t.store.flow_state =
          (runGenActions pid (afterUser s msg) acts).flow_state) := by
  have ha : s.available = true := ((wf_iff s).mp hwf).1
  have hwf1 : (afterUser s msg).wf = true := wf_afterUser hwf msg
  cases gen with
  | fail acts err =>
    obtain ⟨gwf, ghist, gclk⟩ := runGenActions_spec pid acts hwf1
    have ha2 : (runGenActions pid (afterUser s msg) acts).available = true :=
      ((wf_iff _).mp gwf).1
    have heq : feedbackProcess limit (.fail acts err) s pid msg = .ok
        { historyRead := s.history
          genInput := toChatPairs (boundHistory limit s.history)
          currentInput := msg
          storeAtGen := afterUser s msg
          response := apologyText err
          store :=
            afterAssistant (runGenActions pid (afterUser s msg) acts)
              (apologyText err) } := by
      simp only [feedbackProcess, get_conversation_history_eq ha,
        except_bind_ok, add_user_eq ha, add_assistant_eq ha2]
    refine ⟨_, heq, ?_, ?_, ?_, ?_, ?_, ?_, ?_, ?_⟩
    · exact wf_afterAssistant gwf _
    · rfl
    · rfl
    · rfl
    · exact ⟨"", by simp⟩
    · refine ⟨(runGenActions pid (afterUser s msg) acts).clock, ?_⟩
      simp only [afterAssistant, genText]
      rw [ghist]
      simp [afterUser]
    · intro acts2 err2 h
      cases h
      rfl
    · intro acts2 txt2 h
      exact GenResult.noConfusion h
  | ok acts txt =>
    obtain ⟨gwf, ghist, gclk⟩ := runGenActions_spec pid acts hwf1
    have ha2 : (runGenActions pid (afterUser s msg) acts).available = true :=
      ((wf_iff _).mp gwf).1
    have heq : feedbackProcess limit (.ok acts txt) s pid msg = .ok
        { historyRead := s.history
          genInput := toChatPairs (boundHistory limit s.history)
          currentInput := msg
          storeAtGen := afterUser s msg
          response := txt
          store :=
            afterAssistant (runGenActions pid (afterUser s msg) acts)
              txt } := by
      simp only [feedbackProcess, get_conversation_history_eq ha,
        except_bind_ok, add_user_eq ha, add_assistant_eq ha2]
    refine ⟨_, heq, ?_, ?_, ?_, ?_, ?_, ?_, ?_, ?_⟩
    · exact wf_afterAssistant gwf txt
    · rfl
    · rfl
    · rfl
    · exact ⟨"", by simp⟩
    · refine ⟨(runGenActions pid (afterUser s msg) acts).clock, ?_⟩
      simp only [afterAssistant, genText]
      rw [ghist]
      simp [afterUser]
    · intro acts2 err2 h
      exact GenResult.noConfusion h
    · intro acts2 txt2 h
      cases h
      rfl

/-!
## Router-level lemmas
-/

theorem orchestratorDefault_none {s : Store} (ha : s.available = true)
    (h0 : s.flow_state = none) :
    orchestratorDefault s = .ok (.COORDINATOR,
      { s with
        flow_state := some "COORDINATOR"
        flow_updated_at := s.clock
        clock := s.clock + 1 }) := by
  simp only [orchestratorDefault, Store.get_current_state, ha, if_true, h0,
    except_bind_ok, set_current_state_eq ha, ConversationState.value]

theorem orchestratorDefault_some {s : Store} (ha : s.available = true)
    {v : String} (hv : s.flow_state = some v) {st : ConversationState}
    (hst : ConversationState.ofValue? v = some st) :
    orchestratorDefault s = .ok (st, s) := by
  simp only [orchestratorDefault, Store.get_current_state, ha, if_true, hv,
    hst, except_bind_ok]

/-- The role/content view of a history row (timestamps elided). -/
def rc (r : HistRow) : String × String := (r.role, r.content)

/-- One `process_message` call on a well-formed store succeeds, preserves
well-formedness, and within the turn: the handler reads exactly the
pre-call history, the incoming message is appended as a USER row before
generation is invoked and is handed to generation directly, and afterwards
history has gained exactly one USER row (the incoming message) followed by
one ASSISTANT row (the returned response). -/
theorem processMessage_spec (sysPrompt : String) (limit : Int)
    (gens : GenSpec) {s : Store} (hwf : s.wf = true) (pid msg : String) :
    ∃ res : RouteResult,
      processMessage sysPrompt limit gens s pid msg = .ok res ∧
      res.store.wf = true ∧
      res.trace.historyRead = s.history ∧
      (∃ ts, res.trace.storeAtGen.history =
        s.history ++ [⟨"user", msg, ts⟩]) ∧
      (∃ suffix, res.trace.currentInput = msg ++ suffix) ∧
      (∃ ts1 ts2, res.store.history =
        s.history ++
          [⟨"user", msg, ts1⟩, ⟨"assistant", res.response, ts2⟩]) ∧
      res.store.history.map rc =
        s.history.map rc ++ [("user", msg), ("assistant", res.response)] := by
  obtain ⟨ha, hp, hf, hk, hsrt⟩ := (wf_iff s).mp hwf
  cases h0 : s.flow_state with
  | none =>
    have hd := orchestratorDefault_none ha h0
    have hwf1 : ({ s with
        flow_state := some "COORDINATOR"
        flow_updated_at := s.clock
        clock := s.clock + 1 } : Store).wf = true :=
      wf_set_current_state hwf .COORDINATOR
    have ha1 : ({ s with
        flow_state := some "COORDINATOR"
        flow_updated_at := s.clock
        clock := s.clock + 1 } : Store).available = true := ha
    have hc := coordinatorProcess_eq sysPrompt limit gens.coordinator
      ha1 pid msg
    have hwf2 := wf_afterAssistant
      (wf_afterUser hwf1 msg) (genText gens.coordinator)
    obtain ⟨t, ht, hts, htr, thr, tsag, tci⟩ :
        ∃ t, coordinatorProcess sysPrompt limit gens.coordinator
            { s with
              flow_state := some "COORDINATOR"
              flow_updated_at := s.clock
              clock := s.clock + 1 } pid msg = .ok t ∧
          t.store = afterAssistant
            (afterUser
              { s with
                flow_state := some "COORDINATOR"
                flow_updated_at := s.clock
                clock := s.clock + 1 } msg) (genText gens.coordinator) ∧
          t.response = genText gens.coordinator ∧
          t.historyRead = s.history ∧
          t.storeAtGen = afterUser
            { s with
              flow_state := some "COORDINATOR"
              flow_updated_at := s.clock
              clock := s.clock + 1 } msg ∧
          t.currentInput = msg := ⟨_, hc, rfl, rfl, rfl, rfl, rfl⟩
    rw [← hts] at hwf2
    obtain ⟨o2, ho2⟩ := get_current_state_ok hwf2
    refine ⟨⟨t.response, o2, t.store, t⟩, ?_, hwf2, thr, ?_, ?_, ?_, ?_⟩
    · simp only [processMessage, hd, except_bind_ok, ht, ho2]
    · exact ⟨s.clock + 1, by rw [tsag]; simp [afterUser]⟩
    · exact ⟨"", by rw [tci]; simp⟩
    · exact ⟨s.clock + 1, s.clock + 1 + 1,
        by rw [hts, htr]; simp [afterAssistant, afterUser]⟩
    · rw [hts, htr]
      simp [afterAssistant, afterUser, rc]
  | some v =>
    rw [h0] at hf
    simp only [flowOk, validLabel, Option.isSome_iff_exists] at hf
    obtain ⟨st, hst⟩ := hf
    have hd := orchestratorDefault_some ha h0 hst
    cases st with
    | INTAKE =>
      obtain ⟨t, ht, twf, thr, tsag, tresp, tcur, ⟨ts2, thist⟩, tfail, tok⟩ :=
        intakeProcess_spec limit gens.intake hwf pid msg
      obtain ⟨o2, ho2⟩ := get_current_state_ok twf
      refine ⟨⟨t.response, o2, t.store, t⟩, ?_, twf, thr, ?_, tcur, ?_, ?_⟩
      · simp only [processMessage, hd, except_bind_ok, ht, ho2]
      · exact ⟨s.clock, by rw [tsag]; simp [afterUser]⟩
      · exact ⟨s.clock, ts2, by rw [tresp]; exact thist⟩
      · rw [thist, tresp]
        simp [rc]
    | FEEDBACK =>
      obtain ⟨t, ht, twf, thr, tsag, tresp, tcur, ⟨ts2, thist⟩, tfail, tok⟩ :=
        feedbackProcess_spec limit gens.feedback hwf pid msg
      obtain ⟨o2, ho2⟩ := get_current_state_ok twf
      refine ⟨⟨t.response, o2, t.store, t⟩, ?_, twf, thr, ?_, tcur, ?_, ?_⟩
      · simp only [processMessage, hd, except_bind_ok, ht, ho2]
      · exact ⟨s.clock, by rw [tsag]; simp [afterUser]⟩
      · exact ⟨s.clock, ts2, by rw [tresp]; exact thist⟩
      · rw [thist, tresp]
        simp [rc]
    | COORDINATOR =>
      have hc := coordinatorProcess_eq sysPrompt limit gens.coordinator ha
        pid msg
      have hwf2 := wf_afterAssistant (wf_afterUser hwf msg)
        (genText gens.coordinator)
      obtain ⟨t, ht, hts, htr, thr, tsag, tci⟩ :
          ∃ t, coordinatorProcess sysPrompt limit gens.coordinator s pid
              msg = .ok t ∧
            t.store = afterAssistant (afterUser s msg)
              (genText gens.coordinator) ∧
            t.response = genText gens.coordinator ∧
            t.historyRead = s.history ∧
            t.storeAtGen = afterUser s msg ∧
            t.currentInput = msg := ⟨_, hc, rfl, rfl, rfl, rfl, rfl⟩
      rw [← hts] at hwf2
      obtain ⟨o2, ho2⟩ := get_current_state_ok hwf2
      refine ⟨⟨t.response, o2, t.store, t⟩, ?_, hwf2, thr, ?_, ?_, ?_, ?_⟩
      · simp only [processMessage, hd, except_bind_ok, ht, ho2]
      · exact ⟨s.clock, by rw [tsag]; simp [afterUser]⟩
      · exact ⟨"", by rw [tci]; simp⟩
      · exact ⟨s.clock, s.clock + 1,
          by rw [hts, htr]; simp [afterAssistant, afterUser]⟩
      · rw [hts, htr]
        simp [afterAssistant, afterUser, rc]
    | CONVERSATION_ACTIVE =>
      have hc := coordinatorProcess_eq sysPrompt limit gens.coordinator ha
        pid msg
      have hwf2 := wf_afterAssistant (wf_afterUser hwf msg)
        (genText gens.coordinator)
      obtain ⟨t, ht, hts, htr, thr, tsag, tci⟩ :
          ∃ t, coordinatorProcess sysPrompt limit gens.coordinator s pid
              msg = .ok t ∧
            t.store = afterAssistant (afterUser s msg)
              (genText gens.coordinator) ∧
            t.response = genText gens.coordinator ∧
            t.historyRead = s.history ∧
            t.storeAtGen = afterUser s msg ∧
            t.currentInput = msg := ⟨_, hc, rfl, rfl, rfl, rfl, rfl⟩
      rw [← hts] at hwf2
      obtain ⟨o2, ho2⟩ := get_current_state_ok hwf2
      refine ⟨⟨t.response, o2, t.store, t⟩, ?_, hwf2, thr, ?_, ?_, ?_, ?_⟩
      · simp only [processMessage, hd, except_bind_ok, ht, ho2]
      · exact ⟨s.clock, by rw [tsag]; simp [afterUser]⟩
      · exact ⟨"", by rw [tci]; simp⟩
      · exact ⟨s.clock, s.clock + 1,
          by rw [hts, htr]; simp [afterAssistant, afterUser]⟩
      · rw [hts, htr]
        simp [afterAssistant, afterUser, rc]


/-- The USER/ASSISTANT row pairs appended by a sequence of calls, in call
order. -/
def interleavePairs : List (String × String) → List (String × String)
  | [] => []
  | (m, r) :: rest =>
    ("user", m) :: ("assistant", r) :: interleavePairs rest

theorem interleavePairs_length (l : List (String × String)) :
    (interleavePairs l).length = 2 * l.length := by
  induction l with
  | nil => rfl
  | cons p rest ih =>
    cases p
    simp only [interleavePairs, List.length_cons, ih]
    omega

/-- A sequence of `process_message` calls on a well-formed store succeeds
and appends, per call, exactly the USER row of that call's message followed
by the ASSISTANT row of that call's response, in call order. -/
theorem runCalls_spec (sysPrompt : String) (limit : Int) (pid : String)
    (calls : List (GenSpec × String)) :
    ∀ {s : Store}, s.wf = true →
      ∃ (s2 : Store) (resps : List String),
        runCalls sysPrompt limit pid calls s = .ok s2 ∧
        resps.length = calls.length ∧
        s2.history.map rc =
          s.history.map rc ++
            interleavePairs ((calls.map Prod.snd).zip resps) ∧
        s2.wf = true := by
  induction calls with
  | nil =>
    intro s hwf
    exact ⟨s, [], rfl, rfl, by simp [interleavePairs], hwf⟩
  | cons c rest ih =>
    obtain ⟨g, m⟩ := c
    intro s hwf
    obtain ⟨res, hres, rwf, -, -, -, -, rhist⟩ :=
      processMessage_spec sysPrompt limit g hwf pid m
    obtain ⟨s2, resps, hrun, hlen, hhist, swf⟩ := ih rwf
    refine ⟨s2, res.response :: resps, ?_, by simp [hlen], ?_, swf⟩
    · simp only [runCalls, hres, except_bind_ok, hrun]
    · rw [hhist, rhist]
      simp [interleavePairs, List.zip]

/-!
## Fixtures for concrete runs
-/

/-- A fresh, reachable, empty per-participant store slice. -/
def store0 : Store :=
  { available := true, flow_state := none, flow_updated_at := 0,
    history := [], profile := none, state_data := [], clock := 0 }

/-- Generation outcomes that succeed with plain text and no tool calls. -/
def gensHello : GenSpec :=
  ⟨.ok [] "hello!", .ok [] "hello!", .ok [] "hello!"⟩

/-!
## Claims
-/

/-- C1: profile writes are field-level merges, not replacements: for a
participant with an existing (decodable) profile, a profile-save call
overwrites exactly the provided fields and retains the prior value of every
omitted field, as observed by a subsequent profile read. -/
theorem C1_profile_merge {s : Store} (hwf : s.wf = true) (pid : String)
    {p0 : UserProfile} (hget : s.get_user_profile pid = .ok (some p0))
    (hd pa mf pt op : Option String) :
    ∃ txt s1 p1, profileSaveRun s pid hd pa mf pt op = (txt, s1) ∧
      s1.get_user_profile pid = .ok (some p1) ∧
      p1.habit_domain = mergeField hd p0.habit_domain ∧
      p1.prompt_anchor = mergeField pa p0.prompt_anchor ∧
      p1.motivational_frame = mergeField mf p0.motivational_frame ∧
      p1.preferred_time = mergeField pt p0.preferred_time ∧
      p1.other_personalization = mergeField op p0.other_personalization := by
  have ha : s.available = true := ((wf_iff s).mp hwf).1
  obtain ⟨txt, heq⟩ : ∃ txt, profileSaveRun s pid hd pa mf pt op =
      (txt, { s with
              profile := some ⟨.fields
                ⟨mergeField hd p0.habit_domain,
                 mergeField pa p0.prompt_anchor,
                 mergeField mf p0.motivational_frame,
                 mergeField pt p0.preferred_time,
                 mergeField op p0.other_personalization⟩, s.clock⟩
              clock := s.clock + 1 }) := by
    simp only [profileSaveRun, hget, save_user_profile_eq ha]
    cases savedFieldEntries hd pa mf pt op with
    | nil => exact ⟨_, rfl⟩
    | cons e es => exact ⟨_, rfl⟩
  refine ⟨txt, _,
    { participant_id := pid
      habit_domain := mergeField hd p0.habit_domain
      prompt_anchor := mergeField pa p0.prompt_anchor
      motivational_frame := mergeField mf p0.motivational_frame
      preferred_time := mergeField pt p0.preferred_time
      other_personalization := mergeField op p0.other_personalization
      created_at := s.clock + 1
      updated_at := s.clock + 1 }, heq, ?_, rfl, rfl, rfl, rfl, rfl⟩
  simp [Store.get_user_profile, ha]

/-- The store after a first profile save (habit domain only) for a fresh
participant. -/
def sC1 : Store :=
  (profileSaveRun store0 "p1" (some "fitness") none none none none).2

/-- The profile read back from `sC1`. -/
def pC1 : UserProfile :=
  ⟨"p1", some "fitness", none, none, none, none, 1, 1⟩

/-- C1 witness: writing habit domain fitness and then, in a later call,
prompt anchor coffee yields a profile with both fields set. -/
theorem C1_witness :
    sC1.wf = true ∧ sC1.get_user_profile "p1" = .ok (some pC1) ∧
    ∃ txt s1 p1,
      profileSaveRun sC1 "p1" none (some "coffee") none none none =
        (txt, s1) ∧
      s1.get_user_profile "p1" = .ok (some p1) ∧
      p1.habit_domain = some "fitness" ∧
      p1.prompt_anchor = some "coffee" := by
  refine ⟨rfl, rfl, ?_⟩
  obtain ⟨txt, s1, p1, h1, h2, h3, h4, -, -, -⟩ :=
    C1_profile_merge (show sC1.wf = true from rfl) "p1"
      (show sC1.get_user_profile "p1" = .ok (some pC1) from rfl)
      none (some "coffee") none none none
  exact ⟨txt, s1, p1, h1, h2, by rw [h3]; rfl, by rw [h4]; rfl⟩

/-- C2: for a participant with no persisted conversation state on a
reachable store, `process_message` uses COORDINATOR as the current state,
persists it before routing proceeds, returns final state COORDINATOR, and
an independent state read after the call also returns COORDINATOR. -/
theorem C2_default_state (sysPrompt : String) (limit : Int)
    (gens : GenSpec) {s : Store} (hwf : s.wf = true)
    (h0 : s.flow_state = none) (pid msg : String) :
    ∃ s1 res,
      orchestratorDefault s = .ok (.COORDINATOR, s1) ∧
      s1.get_current_state = .ok (some .COORDINATOR) ∧
      processMessage sysPrompt limit gens s pid msg = .ok res ∧
      res.finalState = some .COORDINATOR ∧
      res.store.get_current_state = .ok (some .COORDINATOR) := by
  have ha : s.available = true := ((wf_iff s).mp hwf).1
  have hd := orchestratorDefault_none ha h0
  have ha1 : ({ s with
      flow_state := some "COORDINATOR"
      flow_updated_at := s.clock
      clock := s.clock + 1 } : Store).available = true := ha
  have hc := coordinatorProcess_eq sysPrompt limit gens.coordinator
    ha1 pid msg
  obtain ⟨t, ht, hts⟩ :
      ∃ t, coordinatorProcess sysPrompt limit gens.coordinator
          { s with
            flow_state := some "COORDINATOR"
            flow_updated_at := s.clock
            clock := s.clock + 1 } pid msg = .ok t ∧
        t.store = afterAssistant
          (afterUser
            { s with
              flow_state := some "COORDINATOR"
              flow_updated_at := s.clock
              clock := s.clock + 1 } msg) (genText gens.coordinator) :=
    ⟨_, hc, rfl⟩
  have hov : ConversationState.ofValue? "COORDINATOR" =
      some .COORDINATOR := rfl
  have ho2 : t.store.get_current_state = .ok (some .COORDINATOR) := by
    rw [hts]
    simp [Store.get_current_state, afterAssistant, afterUser, ha, hov]
  refine ⟨_, ⟨t.response, some .COORDINATOR, t.store, t⟩, hd, ?_, ?_,
    rfl, ho2⟩
  · simp [Store.get_current_state, ha, hov]
  · simp only [processMessage, hd, except_bind_ok, ht, ho2]

/-- C2 witness at a fresh participant. -/
theorem C2_witness :
    store0.wf = true ∧ store0.flow_state = none ∧
    ∃ s1 res,
      orchestratorDefault store0 = .ok (.COORDINATOR, s1) ∧
      s1.get_current_state = .ok (some .COORDINATOR) ∧
      processMessage "sys" (-1) gensHello store0 "p1" "hi" = .ok res ∧
      res.finalState = some .COORDINATOR ∧
      res.store.get_current_state = .ok (some .COORDINATOR) :=
  ⟨rfl, rfl, C2_default_state "sys" (-1) gensHello
    (show store0.wf = true from rfl)
    (show store0.flow_state = none from rfl) "p1" "hi"⟩

/-- C3: if the handler processing the message requests a transition to
INTAKE through the state-transition tool, the same `process_message` call
returns final state INTAKE: the router re-reads state after delegation and
returns the post-handler value. -/
theorem C3_transition_reread (sysPrompt : String) (limit : Int)
    (gens : GenSpec) (txt : String) {s : Store} (hwf : s.wf = true)
    {v : String} (hv : s.flow_state = some v)
    (hvv : v = "INTAKE" ∨ v = "FEEDBACK")
    (hgi : gens.intake = .ok [.transition "INTAKE"] txt)
    (hgf : gens.feedback = .ok [.transition "INTAKE"] txt)
    (pid msg : String) :
    ∃ res, processMessage sysPrompt limit gens s pid msg = .ok res ∧
      res.finalState = some .INTAKE := by
  have ha : s.available = true := ((wf_iff s).mp hwf).1
  have haU : (afterUser s msg).available = true := ha
  have hovI : ConversationState.ofValue? "INTAKE" = some .INTAKE := rfl
  cases hvv with
  | inl hveq =>
    subst hveq
    have hd := orchestratorDefault_some ha hv hovI
    obtain ⟨t, ht, twf, thr, tsag, tresp, tcur, thist, tfail, tok⟩ :=
      intakeProcess_spec limit gens.intake hwf pid msg
    have hfs : t.store.flow_state = some "INTAKE" := by
      rw [tok _ _ hgi]
      simp only [runGenActions, runGenAction, stateTransitionRun, hovI,
        set_current_state_eq haU, ConversationState.value]
    have hta : t.store.available = true := ((wf_iff _).mp twf).1
    have ho2 : t.store.get_current_state = .ok (some .INTAKE) := by
      simp [Store.get_current_state, hta, hfs, hovI]
    refine ⟨⟨t.response, some .INTAKE, t.store, t⟩, ?_, rfl⟩
    simp only [processMessage, hd, except_bind_ok, ht, ho2]
  | inr hveq =>
    subst hveq
    have hovF : ConversationState.ofValue? "FEEDBACK" =
        some .FEEDBACK := rfl
    have hd := orchestratorDefault_some ha hv hovF
    obtain ⟨t, ht, twf, thr, tsag, tresp, tcur, thist, tfail, tok⟩ :=
      feedbackProcess_spec limit gens.feedback hwf pid msg
    have hfs : t.store.flow_state = some "INTAKE" := by
      rw [tok _ _ hgf]
      simp only [runGenActions, runGenAction, stateTransitionRun, hovI,
        set_current_state_eq haU, ConversationState.value]
    have hta : t.store.available = true := ((wf_iff _).mp twf).1
    have ho2 : t.store.get_current_state = .ok (some .INTAKE) := by
      simp [Store.get_current_state, hta, hfs, hovI]
    refine ⟨⟨t.response, some .INTAKE, t.store, t⟩, ?_, rfl⟩
    simp only [processMessage, hd, except_bind_ok, ht, ho2]

/-- A fresh store whose persisted state is FEEDBACK. -/
def sFeedback : Store := { store0 with flow_state := some "FEEDBACK" }

/-- Generation outcomes in which the active handler requests a transition
to INTAKE. -/
def gensToIntake : GenSpec :=
  ⟨.ok [] "x", .ok [.transition "INTAKE"] "done",
   .ok [.transition "INTAKE"] "done"⟩

/-- C3 witness: from pre-state FEEDBACK, a handler-requested transition to
INTAKE yields final state INTAKE in the same call. -/
theorem C3_witness :
    sFeedback.flow_state = some "FEEDBACK" ∧
    ∃ res, processMessage "sys" (-1) gensToIntake sFeedback "p1" "hi" =
        .ok res ∧
      res.finalState = some .INTAKE :=
  ⟨rfl, C3_transition_reread "sys" (-1) gensToIntake "done"
    (show sFeedback.wf = true from rfl)
    (show sFeedback.flow_state = some "FEEDBACK" from rfl)
    (Or.inr rfl) rfl rfl "p1" "hi"⟩

/-- C4 counterexample: at a fresh participant sent the message hi, the
handler reads history before its own USER append — nothing is appended
before delegation — so the handler's history read during the turn is empty
and does not contain the incoming message. -/
theorem C4_counterexample :
    ∃ res, processMessage "sys" (-1) gensHello store0 "p1" "hi" = .ok res ∧
      res.trace.historyRead = [] ∧
      ¬ ("hi" ∈ res.trace.historyRead.map (fun r => r.content)) := by
  exact ⟨_, rfl, rfl, by decide⟩

/-- C4 (amended): the USER append happens inside the handler, after its
history read and before generation: the handler reads exactly the pre-call
history (which does not yet include the incoming message), the incoming
message is appended as a USER row before generation is invoked and is
passed to generation directly alongside the read history, and after the
call the USER row precedes the handler's ASSISTANT row. -/
theorem C4_user_append_inside_handler (sysPrompt : String) (limit : Int)
    (gens : GenSpec) {s : Store} (hwf : s.wf = true) (pid msg : String) :
    ∃ res, processMessage sysPrompt limit gens s pid msg = .ok res ∧
      res.trace.historyRead = s.history ∧
      (∃ ts, res.trace.storeAtGen.history =
        s.history ++ [⟨"user", msg, ts⟩]) ∧
      (∃ suffix, res.trace.currentInput = msg ++ suffix) ∧
      (∃ ts1 ts2, res.store.history =
        s.history ++
          [⟨"user", msg, ts1⟩, ⟨"assistant", res.response, ts2⟩]) := by
  obtain ⟨res, h1, -, h3, h4, h5, h6, -⟩ :=
    processMessage_spec sysPrompt limit gens hwf pid msg
  exact ⟨res, h1, h3, h4, h5, h6⟩

/-- C4 amended witness at a fresh participant. -/
theorem C4_witness :
    store0.wf = true ∧
    ∃ res, processMessage "sys" (-1) gensHello store0 "p1" "hi" = .ok res ∧
      res.trace.historyRead = store0.history ∧
      (∃ ts, res.trace.storeAtGen.history =
        store0.history ++ [⟨"user", "hi", ts⟩]) ∧
      (∃ suffix, res.trace.currentInput = "hi" ++ suffix) ∧
      (∃ ts1 ts2, res.store.history =
        store0.history ++
          [⟨"user", "hi", ts1⟩, ⟨"assistant", res.response, ts2⟩]) :=
  ⟨rfl, C4_user_append_inside_handler "sys" (-1) gensHello
    (show store0.wf = true from rfl) "p1" "hi"⟩

/-- C5: starting from empty history, a sequence of N `process_message`
calls succeeds and leaves exactly 2N history rows — for each call one USER
row carrying that call's message immediately followed by one ASSISTANT row
carrying that call's response, in call order — with non-decreasing
timestamps (the order `read_history` returns). -/
theorem C5_two_messages_per_call (sysPrompt : String) (limit : Int)
    (pid : String) (calls : List (GenSpec × String)) {s : Store}
    (hwf : s.wf = true) (h0 : s.history = []) :
    ∃ (s2 : Store) (resps : List String),
      runCalls sysPrompt limit pid calls s = .ok s2 ∧
      resps.length = calls.length ∧
      s2.history.length = 2 * calls.length ∧
      s2.history.map rc =
        interleavePairs ((calls.map Prod.snd).zip resps) ∧
      histSorted s2.history = true := by
  obtain ⟨s2, resps, hrun, hlen, hmap, swf⟩ :=
    runCalls_spec sysPrompt limit pid calls hwf
  rw [h0] at hmap
  simp only [List.map_nil, List.nil_append] at hmap
  have hzl : ((calls.map Prod.snd).zip resps).length = calls.length := by
    simp [List.length_zip, hlen]
  have hl := congrArg List.length hmap
  rw [List.length_map, interleavePairs_length, hzl] at hl
  exact ⟨s2, resps, hrun, hlen, hl, hmap, ((wf_iff s2).mp swf).2.2.2.2⟩

/-- C5 witness: two calls on a fresh participant leave four rows, USER then
ASSISTANT per call. -/
theorem C5_witness :
    store0.wf = true ∧ store0.history = [] ∧
    ∃ (s2 : Store) (resps : List String),
      runCalls "sys" (-1) "p1" [(gensHello, "hi"), (gensHello, "again")]
        store0 = .ok s2 ∧
      resps.length = [(gensHello, "hi"), (gensHello, "again")].length ∧
      s2.history.length =
        2 * [(gensHello, "hi"), (gensHello, "again")].length ∧
      s2.history.map rc =
        interleavePairs
          (([(gensHello, "hi"), (gensHello, "again")].map Prod.snd).zip
            resps) ∧
      histSorted s2.history = true :=
  ⟨rfl, rfl, C5_two_messages_per_call "sys" (-1) "p1"
    [(gensHello, "hi"), (gensHello, "again")]
    (show store0.wf = true from rfl)
    (show store0.history = [] from rfl)⟩

/-- Generation outcomes that all fail before any tool invocation ran. -/
def gensBoom : GenSpec :=
  ⟨.fail [] "boom", .fail [] "boom", .fail [] "boom"⟩

/-- Generation outcomes in which the intake agent loop executes a
transition to FEEDBACK — durably committed — and a later LLM call inside
the same `invoke` then raises. -/
def gensFailAfterTransition : GenSpec :=
  ⟨.fail [] "boom", .fail [.transition "FEEDBACK"] "boom",
   .fail [] "boom"⟩

/-- A fresh store whose persisted state is INTAKE. -/
def sIntake : Store := { store0 with flow_state := some "INTAKE" }

/-- C6 counterexample: the persisted conversation state is not unchanged
from before the call when generation fails.  First, for a participant with
no prior state the router persists the COORDINATOR default before
delegating, so the state changes from absent to COORDINATOR even though
generation fails.  Second, for a participant already in INTAKE whose agent
loop commits a transition to FEEDBACK before a later LLM call raises, the
call returns the apology yet the persisted state is FEEDBACK, not the
pre-call INTAKE. -/
theorem C6_counterexample :
    (store0.flow_state = none ∧
      ∃ res, processMessage "sys" (-1) gensBoom store0 "p1" "hi" =
          .ok res ∧
        res.store.flow_state = some "COORDINATOR") ∧
    (sIntake.flow_state = some "INTAKE" ∧
      ∃ res, processMessage "sys" (-1) gensFailAfterTransition sIntake
          "p1" "hi" = .ok res ∧
        res.response = apologyText "boom" ∧
        res.store.flow_state = some "FEEDBACK") := by
  exact ⟨⟨rfl, _, rfl, rfl⟩, ⟨rfl, _, rfl, rfl, rfl⟩⟩

theorem apologyText_ne_empty (err : String) : apologyText err ≠ "" := by
  intro h
  have h2 := congrArg String.length h
  simp [apologyText, String.length_append] at h2
  have h3 : "I apologize, but I encountered an error: ".length ≠ 0 := by
    decide
  exact h3 h2.1

/-- C6 (amended): if the selected handler's generation fails, the route
call still completes with the non-empty apology response, and the inbound
USER message is recorded, followed by the apology ASSISTANT row.  The
persisted state, however, is only conditionally unchanged: for a
participant with an existing persisted state, the coordinator handler
(COORDINATOR or CONVERSATION_ACTIVE, which executes no tools) leaves it
unchanged, while under the intake or feedback handler the post-call state
is whatever the tool invocations that committed before the raise left
behind — unchanged exactly when no state write committed before the
failure (in particular when no tool ran at all), and possibly different
when a transition committed first.  (For a participant with absent state
the router additionally persists the default COORDINATOR before
delegating.) -/
theorem C6_fail_soft (sysPrompt : String) (limit : Int) (err : String)
    (actsC actsI actsF : List GenAction) {gens : GenSpec}
    (hgc : gens.coordinator = .fail actsC err)
    (hgi : gens.intake = .fail actsI err)
    (hgf : gens.feedback = .fail actsF err)
    {s : Store} (hwf : s.wf = true) {v : String}
    (hv : s.flow_state = some v) (pid msg : String) :
    ∃ res st,
      processMessage sysPrompt limit gens s pid msg = .ok res ∧
      res.response = apologyText err ∧
      res.response ≠ "" ∧
      ConversationState.ofValue? v = some st ∧
      (∃ ts1 ts2, res.store.history =
        s.history ++
          [⟨"user", msg, ts1⟩, ⟨"assistant", apologyText err, ts2⟩]) ∧
      (st = .COORDINATOR ∨ st = .CONVERSATION_ACTIVE →
        res.store.flow_state = s.flow_state) ∧
      (st = .INTAKE →
        res.store.flow_state =
          (runGenActions pid (afterUser s msg) actsI).flow_state) ∧
      (st = .FEEDBACK →
        res.store.flow_state =
          (runGenActions pid (afterUser s msg) actsF).flow_state) ∧
      (st = .INTAKE → actsI = [] →
        res.store.flow_state = s.flow_state) ∧
      (st = .FEEDBACK → actsF = [] →
        res.store.flow_state = s.flow_state) := by
  obtain ⟨ha, hp, hf, hk, hsrt⟩ := (wf_iff s).mp hwf
  rw [hv] at hf
  simp only [flowOk, validLabel, Option.isSome_iff_exists] at hf
  obtain ⟨st, hst⟩ := hf
  have hd := orchestratorDefault_some ha hv hst
  cases st with
  | INTAKE =>
    obtain ⟨t, ht, twf, thr, tsag, tresp, tcur, ⟨ts2, thist⟩, tfail, tok⟩ :=
      intakeProcess_spec limit gens.intake hwf pid msg
    rw [hgi] at tresp thist
    simp only [genText] at tresp thist
    have hflow : t.store.flow_state =
        (runGenActions pid (afterUser s msg) actsI).flow_state :=
      tfail actsI err hgi
    obtain ⟨o2, ho2⟩ := get_current_state_ok twf
    refine ⟨⟨t.response, o2, t.store, t⟩, .INTAKE, ?_, tresp, ?_, hst,
      ⟨s.clock, ts2, thist⟩, ?_, fun _ => hflow, ?_, ?_, ?_⟩
    · simp only [processMessage, hd, except_bind_ok, ht, ho2]
    · rw [tresp]
      exact apologyText_ne_empty err
    · intro h
      rcases h with h | h <;> exact ConversationState.noConfusion h
    · intro h
      exact ConversationState.noConfusion h
    · intro _ hnil
      subst hnil
      rw [hflow]
      rfl
    · intro h
      exact ConversationState.noConfusion h
  | FEEDBACK =>
    obtain ⟨t, ht, twf, thr, tsag, tresp, tcur, ⟨ts2, thist⟩, tfail, tok⟩ :=
      feedbackProcess_spec limit gens.feedback hwf pid msg
    rw [hgf] at tresp thist
    simp only [genText] at tresp thist
    have hflow : t.store.flow_state =
        (runGenActions pid (afterUser s msg) actsF).flow_state :=
      tfail actsF err hgf
    obtain ⟨o2, ho2⟩ := get_current_state_ok twf
    refine ⟨⟨t.response, o2, t.store, t⟩, .FEEDBACK, ?_, tresp, ?_, hst,
      ⟨s.clock, ts2, thist⟩, ?_, ?_, fun _ => hflow, ?_, ?_⟩
    · simp only [processMessage, hd, except_bind_ok, ht, ho2]
    · rw [tresp]
      exact apologyText_ne_empty err
    · intro h
      rcases h with h | h <;> exact ConversationState.noConfusion h
    · intro h
      exact ConversationState.noConfusion h
    · intro h
      exact ConversationState.noConfusion h
    · intro _ hnil
      subst hnil
      rw [hflow]
      rfl
  | COORDINATOR =>
    have hc := coordinatorProcess_eq sysPrompt limit gens.coordinator ha
      pid msg
    obtain ⟨t, ht, hts, htr⟩ :
        ∃ t, coordinatorProcess sysPrompt limit gens.coordinator s pid
            msg = .ok t ∧
          t.store = afterAssistant (afterUser s msg)
            (genText gens.coordinator) ∧
          t.response = genText gens.coordinator := ⟨_, hc, rfl, rfl⟩
    rw [hgc] at htr hts
    simp only [genText] at htr hts
    have hflow : t.store.flow_state = s.flow_state := by rw [hts]; rfl
    have hwf2 := wf_afterAssistant (wf_afterUser hwf msg)
      (apologyText err)
    rw [← hts] at hwf2
    obtain ⟨o2, ho2⟩ := get_current_state_ok hwf2
    refine ⟨⟨t.response, o2, t.store, t⟩, .COORDINATOR, ?_, htr, ?_, hst,
      ⟨s.clock, s.clock + 1, ?_⟩, fun _ => hflow, ?_, ?_, ?_, ?_⟩
    · simp only [processMessage, hd, except_bind_ok, ht, ho2]
    · rw [htr]
      exact apologyText_ne_empty err
    · rw [hts]
      simp [afterAssistant, afterUser]
    · intro h
      exact ConversationState.noConfusion h
    · intro h
      exact ConversationState.noConfusion h
    · intro h
      exact ConversationState.noConfusion h
    · intro h
      exact ConversationState.noConfusion h
  | CONVERSATION_ACTIVE =>
    have hc := coordinatorProcess_eq sysPrompt limit gens.coordinator ha
      pid msg
    obtain ⟨t, ht, hts, htr⟩ :
        ∃ t, coordinatorProcess sysPrompt limit gens.coordinator s pid
            msg = .ok t ∧
          t.store = afterAssistant (afterUser s msg)
            (genText gens.coordinator) ∧
          t.response = genText gens.coordinator := ⟨_, hc, rfl, rfl⟩
    rw [hgc] at htr hts
    simp only [genText] at htr hts
    have hflow : t.store.flow_state = s.flow_state := by rw [hts]; rfl
    have hwf2 := wf_afterAssistant (wf_afterUser hwf msg)
      (apologyText err)
    rw [← hts] at hwf2
    obtain ⟨o2, ho2⟩ := get_current_state_ok hwf2
    refine ⟨⟨t.response, o2, t.store, t⟩, .CONVERSATION_ACTIVE, ?_, htr,
      ?_, hst, ⟨s.clock, s.clock + 1, ?_⟩, fun _ => hflow, ?_, ?_, ?_, ?_⟩
    · simp only [processMessage, hd, except_bind_ok, ht, ho2]
    · rw [htr]
      exact apologyText_ne_empty err
    · rw [hts]
      simp [afterAssistant, afterUser]
    · intro h
      exact ConversationState.noConfusion h
    · intro h
      exact ConversationState.noConfusion h
    · intro h
      exact ConversationState.noConfusion h
    · intro h
      exact ConversationState.noConfusion h

/-- C6 amended witness: a participant in INTAKE whose intake agent loop
commits a transition to FEEDBACK before a later LLM call raises — the call
still returns the apology and records the USER message, and the final
state is the one the committed transition left behind. -/
theorem C6_witness :
    sIntake.wf = true ∧ sIntake.flow_state = some "INTAKE" ∧
    ∃ res st,
      processMessage "sys" (-1) gensFailAfterTransition sIntake "p1"
        "hi" = .ok res ∧
      res.response = apologyText "boom" ∧
      res.response ≠ "" ∧
      ConversationState.ofValue? "INTAKE" = some st ∧
      (∃ ts1 ts2, res.store.history =
        sIntake.history ++
          [⟨"user", "hi", ts1⟩, ⟨"assistant", apologyText "boom", ts2⟩]) ∧
      (st = .COORDINATOR ∨ st = .CONVERSATION_ACTIVE →
        res.store.flow_state = sIntake.flow_state) ∧
      (st = .INTAKE →
        res.store.flow_state =
          (runGenActions "p1" (afterUser sIntake "hi")
            [.transition "FEEDBACK"]).flow_state) ∧
      (st = .FEEDBACK →
        res.store.flow_state =
          (runGenActions "p1" (afterUser sIntake "hi") []).flow_state) ∧
      (st = .INTAKE →
        [GenAction.transition "FEEDBACK"] = ([] : List GenAction) →
        res.store.flow_state = sIntake.flow_state) ∧
      (st = .FEEDBACK → ([] : List GenAction) = [] →
        res.store.flow_state = sIntake.flow_state) :=
  ⟨rfl, rfl, C6_fail_soft "sys" (-1) "boom" [] [.transition "FEEDBACK"]
    [] rfl rfl rfl (show sIntake.wf = true from rfl)
    (show sIntake.flow_state = some "INTAKE" from rfl) "p1" "hi"⟩


/-- C7: a transition request to a label outside the four-value enumeration
fails with invalid-transition error text (raised and caught before any
store access), returns the store unchanged, and does not abort the turn —
the turn still completes with the handler's non-empty response and
unchanged persisted state; a request for any of the four enumerated labels
succeeds and persists that state. -/
theorem C7_invalid_transition_safety :
    (∀ (s : Store) (pid lbl : String), validLabel lbl = false →
      stateTransitionRun s pid lbl =
        ("Error: Invalid state " ++ lbl ++
          ". Valid states are: COORDINATOR, INTAKE, FEEDBACK", s)) ∧
    (∀ (sysPrompt : String) (limit : Int) (gens : GenSpec) (s : Store)
        (pid msg lbl txt : String), s.wf = true →
      s.flow_state = some "INTAKE" →
      gens.intake = .ok [.transition lbl] txt →
      validLabel lbl = false → txt ≠ "" →
      ∃ res, processMessage sysPrompt limit gens s pid msg = .ok res ∧
        res.response = txt ∧ res.response ≠ "" ∧
        res.store.flow_state = s.flow_state) ∧
    (∀ (s : Store) (pid : String) (st : ConversationState),
      s.available = true →
      ∃ s1, stateTransitionRun s pid st.value =
        ("Successfully transitioned to " ++ st.value ++ " state.", s1) ∧
        s1.flow_state = some st.value) := by
  refine ⟨?_, ?_, ?_⟩
  · intro s pid lbl hlbl
    cases hx : ConversationState.ofValue? lbl with
    | some st =>
      rw [validLabel, hx] at hlbl
      simp at hlbl
    | none => simp [stateTransitionRun, hx]
  · intro sysPrompt limit gens s pid msg lbl txt hwf hv hgi hlbl htxt
    have ha : s.available = true := ((wf_iff s).mp hwf).1
    have hovI : ConversationState.ofValue? "INTAKE" = some .INTAKE := rfl
    have hd := orchestratorDefault_some ha hv hovI
    obtain ⟨t, ht, twf, thr, tsag, tresp, tcur, thist, tfail, tok⟩ :=
      intakeProcess_spec limit gens.intake hwf pid msg
    have hxn : ConversationState.ofValue? lbl = none := by
      cases hx : ConversationState.ofValue? lbl with
      | none => rfl
      | some st =>
        rw [validLabel, hx] at hlbl
        simp at hlbl
    have hflow : t.store.flow_state = s.flow_state := by
      rw [tok _ _ hgi]
      simp [runGenActions, runGenAction, stateTransitionRun, hxn,
        afterUser]
    have hresp : t.response = txt := by
      rw [tresp, hgi]
      rfl
    obtain ⟨o2, ho2⟩ := get_current_state_ok twf
    refine ⟨⟨t.response, o2, t.store, t⟩, ?_, hresp, ?_, hflow⟩
    · simp only [processMessage, hd, except_bind_ok, ht, ho2]
    · rw [hresp]
      exact htxt
  · intro s pid st ha
    exact ⟨{ s with
        flow_state := some st.value
        flow_updated_at := s.clock
        clock := s.clock + 1 },
      by simp [stateTransitionRun, ofValue?_value, set_current_state_eq ha],
      rfl⟩

/-- Generation outcomes in which the intake handler requests a transition
to an unknown label and still responds. -/
def gensBogus : GenSpec :=
  ⟨.ok [] "x", .ok [.transition "BOGUS"] "ok then", .ok [] "x"⟩

/-- C7 witness: the label BOGUS is rejected as text with the store
untouched while that turn still completes with a non-empty response and
unchanged state; the enumerated label INTAKE is persisted. -/
theorem C7_witness :
    stateTransitionRun store0 "p1" "BOGUS" =
      ("Error: Invalid state " ++ "BOGUS" ++
        ". Valid states are: COORDINATOR, INTAKE, FEEDBACK", store0) ∧
    (∃ res, processMessage "sys" (-1) gensBogus sIntake "p1" "hi" =
        .ok res ∧
      res.response = "ok then" ∧ res.response ≠ "" ∧
      res.store.flow_state = sIntake.flow_state) ∧
    (∃ s1, stateTransitionRun store0 "p1"
        ConversationState.INTAKE.value =
        ("Successfully transitioned to " ++ ConversationState.INTAKE.value
          ++ " state.", s1) ∧
      s1.flow_state = some ConversationState.INTAKE.value) :=
  ⟨C7_invalid_transition_safety.1 store0 "p1" "BOGUS" (by decide),
   C7_invalid_transition_safety.2.1 "sys" (-1) gensBogus sIntake "p1" "hi"
     "BOGUS" "ok then" (show sIntake.wf = true from rfl) rfl rfl
     (by decide) (by decide),
   C7_invalid_transition_safety.2.2 store0 "p1" .INTAKE rfl⟩

/-- The profile used for the created_at experiments. -/
def pC8 : UserProfile :=
  ⟨"p1", some "fitness", none, none, none, none, 0, 0⟩

/-- C8 counterexample: after a first profile write at time 0, a read
observes created_at = 1 (the read time); after a second profile write a
read observes created_at = 2 — the observable created_at is neither set at
the first write nor preserved across later writes, because it is not
persisted at all. -/
theorem C8_counterexample :
    ∃ s1 s2 q1 q2,
      store0.save_user_profile pC8 = .ok s1 ∧
      s1.get_user_profile "p1" = .ok (some q1) ∧
      s1.save_user_profile pC8 = .ok s2 ∧
      s2.get_user_profile "p1" = .ok (some q2) ∧
      q1.created_at = 1 ∧ q2.created_at = 2 ∧
      q1.created_at ≠ q2.created_at := by
  exact ⟨_, _, _, _, rfl, rfl, rfl, rfl, rfl, rfl, by decide⟩

/-- C8 (amended): created_at and updated_at are not round-tripped through
persistence: every `save_user_profile` stores only the five
personalization fields, refreshing the row's updated_at column to the
write time, and `get_user_profile` reconstructs created_at and updated_at
at the read time — so created_at observed through a read is the read time,
not the first-write time. -/
theorem C8_timestamps_not_persisted {s : Store} (hwf : s.wf = true)
    (p : UserProfile) (pid : String) :
    ∃ s1, s.save_user_profile p = .ok s1 ∧
      s1.profile = some ⟨.fields p.dumpFields, s.clock⟩ ∧
      ∃ q, s1.get_user_profile pid = .ok (some q) ∧
        q.created_at = s1.clock ∧ q.updated_at = s1.clock ∧
        q.habit_domain = p.habit_domain := by
  have ha : s.available = true := ((wf_iff s).mp hwf).1
  refine ⟨_, save_user_profile_eq ha p, rfl, ?_⟩
  refine ⟨{ participant_id := pid
            habit_domain := p.habit_domain
            prompt_anchor := p.prompt_anchor
            motivational_frame := p.motivational_frame
            preferred_time := p.preferred_time
            other_personalization := p.other_personalization
            created_at := s.clock + 1
            updated_at := s.clock + 1 }, ?_, rfl, rfl, rfl⟩
  simp [Store.get_user_profile, ha, UserProfile.dumpFields]

/-- C8 amended witness on a fresh store. -/
theorem C8_witness :
    store0.wf = true ∧
    ∃ s1, store0.save_user_profile pC8 = .ok s1 ∧
      s1.profile = some ⟨.fields pC8.dumpFields, store0.clock⟩ ∧
      ∃ q, s1.get_user_profile "p1" = .ok (some q) ∧
        q.created_at = s1.clock ∧ q.updated_at = s1.clock ∧
        q.habit_domain = pC8.habit_domain :=
  ⟨rfl, C8_timestamps_not_persisted (show store0.wf = true from rfl)
    pC8 "p1"⟩

/-- A store with a stored-but-blank profile value (NULL or empty string in
the `profile_data` column). -/
def sBlankProfile : Store := { store0 with profile := some ⟨.blank, 0⟩ }

/-- C9 counterexample: a profile row is present but its stored value is
blank — the empty string, which is not decodable JSON — and the read
returns absent instead of failing, contradicting the claim that every
present-but-undecodable stored value makes the read fail. -/
theorem C9_counterexample :
    sBlankProfile.profile = some ⟨.blank, 0⟩ ∧
    sBlankProfile.get_user_profile "p1" = .ok none := ⟨rfl, rfl⟩

/-- C9 (amended): store reads distinguish absent from corrupt — a missing
row reads as absent, and a stored non-empty value that cannot be decoded
(an unrecognized state label, malformed profile or data JSON) makes the
read fail with a corrupt error — except that a stored falsy value (NULL or
the empty string) is treated as absent rather than an error by the
`if row and row[0]` guard of the profile and data reads. -/
theorem C9_reads_distinguish_absent_and_corrupt :
    (∀ s : Store, s.available = true → s.flow_state = none →
      s.get_current_state = .ok none) ∧
    (∀ (s : Store) (v : String), s.available = true →
      s.flow_state = some v → ConversationState.ofValue? v = none →
      s.get_current_state = .error (.corrupt "state")) ∧
    (∀ (s : Store) (pid : String), s.available = true → s.profile = none →
      s.get_user_profile pid = .ok none) ∧
    (∀ (s : Store) (pid : String) (u : Nat), s.available = true →
      s.profile = some ⟨.malformed, u⟩ →
      s.get_user_profile pid = .error (.corrupt "profile_data")) ∧
    (∀ (s : Store) (pid : String) (u : Nat), s.available = true →
      s.profile = some ⟨.blank, u⟩ →
      s.get_user_profile pid = .ok none) ∧
    (∀ (s : Store) (key : String), s.available = true →
      s.state_data.lookup key = none → s.get_state_data key = .ok none) ∧
    (∀ (s : Store) (key : String) (u : Nat), s.available = true →
      s.state_data.lookup key = some ⟨.malformed, u⟩ →
      s.get_state_data key = .error (.corrupt "value")) ∧
    (∀ (s : Store) (key : String) (u : Nat), s.available = true →
      s.state_data.lookup key = some ⟨.blank, u⟩ →
      s.get_state_data key = .ok none) := by
  refine ⟨?_, ?_, ?_, ?_, ?_, ?_, ?_, ?_⟩
  · intro s ha h
    simp [Store.get_current_state, ha, h]
  · intro s v ha h hx
    simp [Store.get_current_state, ha, h, hx]
  · intro s pid ha h
    simp [Store.get_user_profile, ha, h]
  · intro s pid u ha h
    simp [Store.get_user_profile, ha, h]
  · intro s pid u ha h
    simp [Store.get_user_profile, ha, h]
  · intro s key ha h
    simp [Store.get_state_data, ha, h]
  · intro s key u ha h
    simp [Store.get_state_data, ha, h]
  · intro s key u ha h
    simp [Store.get_state_data, ha, h]

/-- A store holding an unrecognized state label, a malformed profile blob,
and malformed and blank data values. -/
def sCorrupt : Store :=
  { store0 with
    flow_state := some "LIMBO"
    profile := some ⟨.malformed, 0⟩
    state_data := [("a", ⟨.malformed, 0⟩), ("b", ⟨.blank, 0⟩)] }

/-- C9 amended witness across all three reads. -/
theorem C9_witness :
    store0.get_current_state = .ok none ∧
    sCorrupt.get_current_state = .error (.corrupt "state") ∧
    store0.get_user_profile "p1" = .ok none ∧
    sCorrupt.get_user_profile "p1" = .error (.corrupt "profile_data") ∧
    sBlankProfile.get_user_profile "p1" = .ok none ∧
    store0.get_state_data "a" = .ok none ∧
    sCorrupt.get_state_data "a" = .error (.corrupt "value") ∧
    sCorrupt.get_state_data "b" = .ok none :=
  ⟨C9_reads_distinguish_absent_and_corrupt.1 store0 rfl rfl,
   C9_reads_distinguish_absent_and_corrupt.2.1 sCorrupt "LIMBO" rfl rfl
     rfl,
   C9_reads_distinguish_absent_and_corrupt.2.2.1 store0 "p1" rfl rfl,
   C9_reads_distinguish_absent_and_corrupt.2.2.2.1 sCorrupt "p1" 0 rfl
     rfl,
   C9_reads_distinguish_absent_and_corrupt.2.2.2.2.1 sBlankProfile "p1" 0
     rfl rfl,
   C9_reads_distinguish_absent_and_corrupt.2.2.2.2.2.1 store0 "a" rfl rfl,
   C9_reads_distinguish_absent_and_corrupt.2.2.2.2.2.2.1 sCorrupt "a" 0
     rfl rfl,
   C9_reads_distinguish_absent_and_corrupt.2.2.2.2.2.2.2 sCorrupt "b" 0
     rfl rfl⟩

theorem errHeadAppend {a : String} (b : String) (h : ∃ c, a = "Error" ++ c) :
    ∃ rest, a ++ b = "Error" ++ rest := by
  obtain ⟨c, rfl⟩ := h
  exact ⟨c ++ b, by rw [String.append_assoc]⟩

/-- C10: the handler-visible tools are total at their boundary: on a store
whose backing database is unreachable, every store operation inside the
tool raises, and each tool catches the exception and returns error text
(beginning with Error) with the store unchanged, instead of propagating
the failure out of the turn. -/
theorem C10_tools_total (s : Store) (hdown : s.available = false) :
    (∀ pid lbl, (stateTransitionRun s pid lbl).2 = s ∧
      ∃ rest, (stateTransitionRun s pid lbl).1 = "Error" ++ rest) ∧
    (∀ pid hd pa mf pt op, (profileSaveRun s pid hd pa mf pt op).2 = s ∧
      ∃ rest, (profileSaveRun s pid hd pa mf pt op).1 = "Error" ++ rest) ∧
    (∀ pid t m, (schedulerRun s pid t m).2 = s ∧
      ∃ rest, (schedulerRun s pid t m).1 = "Error" ++ rest) := by
  refine ⟨?_, ?_, ?_⟩
  · intro pid lbl
    cases hx : ConversationState.ofValue? lbl with
    | none =>
      have he : stateTransitionRun s pid lbl =
          ("Error: Invalid state " ++ lbl ++
            ". Valid states are: COORDINATOR, INTAKE, FEEDBACK", s) := by
        simp [stateTransitionRun, hx]
      rw [he]
      exact ⟨rfl, errHeadAppend _ (errHeadAppend _ ⟨": Invalid state ", rfl⟩)⟩
    | some st =>
      have he : stateTransitionRun s pid lbl =
          ("Error transitioning state: " ++
            StoreError.unavailable.toMessage, s) := by
        simp [stateTransitionRun, hx, Store.set_current_state, hdown]
      rw [he]
      exact ⟨rfl, errHeadAppend _ ⟨" transitioning state: ", rfl⟩⟩
  · intro pid hd pa mf pt op
    have he : profileSaveRun s pid hd pa mf pt op =
        ("Error saving profile: " ++
          StoreError.unavailable.toMessage, s) := by
      simp [profileSaveRun, Store.get_user_profile, hdown]
    rw [he]
    exact ⟨rfl, errHeadAppend _ ⟨" saving profile: ", rfl⟩⟩
  · intro pid t m
    have he : schedulerRun s pid t m =
        ("Error scheduling prompt: " ++
          StoreError.unavailable.toMessage, s) := by
      simp [schedulerRun, Store.set_state_data, hdown]
    rw [he]
    exact ⟨rfl, errHeadAppend _ ⟨" scheduling prompt: ", rfl⟩⟩

/-- A fresh store whose backing database is unreachable. -/
def storeDown : Store := { store0 with available := false }

/-- C10 witness: each tool on an unreachable store returns error text and
the unchanged store. -/
theorem C10_witness :
    storeDown.available = false ∧
    ((stateTransitionRun storeDown "p1" "INTAKE").2 = storeDown ∧
      ∃ rest, (stateTransitionRun storeDown "p1" "INTAKE").1 =
        "Error" ++ rest) ∧
    ((profileSaveRun storeDown "p1" (some "x") none none none none).2 =
        storeDown ∧
      ∃ rest,
        (profileSaveRun storeDown "p1" (some "x") none none none none).1 =
          "Error" ++ rest) ∧
    ((schedulerRun storeDown "p1" "8am" none).2 = storeDown ∧
      ∃ rest, (schedulerRun storeDown "p1" "8am" none).1 =
        "Error" ++ rest) := by
  have h := C10_tools_total storeDown rfl
  exact ⟨rfl, h.1 "p1" "INTAKE", h.2.1 "p1" (some "x") none none none none,
    h.2.2 "p1" "8am" none⟩
